import Mathlib

/-!
# A shallow embedding of `src/ClassParser.ts` (JSX-Reconstructor)

The source operates on loosely-typed syntax-tree nodes (`any`-typed estree
values), probing fields dynamically and throwing JavaScript `TypeError`s when
a member of `null`/`undefined` is read.  The embedding therefore models tree
nodes as dynamic JavaScript-like values (`JSVal`) and models every fallible
member access in the `Except String` monad, mirroring the source's evaluation
order and short-circuiting.  The two external collaborators — the tree-walking
facility (`acorn-walk`'s `walk.ancestor`) and the source printer used as an
equality oracle (`recast.print`) — are not part of the repository's sources:
the walker is modelled from the spec (a traversal that visits every node and
applies the caller's visitor to each node of the registered type, with the
opaque base configuration left uninterpreted), and the printer is an abstract
parameter `pc : JSVal → String`.
-/

/-- A dynamic JavaScript value: the loosely-typed records the source probes. -/
inductive JSVal where
  | undef : JSVal
  | nul : JSVal
  | bool : Bool → JSVal
  | num : Int → JSVal
  | str : String → JSVal
  | arr : List JSVal → JSVal
  | obj : List (String × JSVal) → JSVal

namespace JSVal

/-- JavaScript truthiness. -/
def truthyV : JSVal → Bool
  | .undef => false
  | .nul => false
  | .bool b => b
  | .num n => n != 0
  | .str s => s ≠ ""
  | .arr _ => true
  | .obj _ => true

/-- Is the value nullish (`undefined` or `null`)?  Optional chaining `?.`
short-circuits exactly on nullish values. -/
def isNullish : JSVal → Bool
  | .undef => true
  | .nul => true
  | _ => false

/-- First binding of a key in an object's field list (JS object keys are
unique, so first-match lookup is the object lookup). -/
def lookupField : List (String × JSVal) → String → JSVal
  | [], _ => .undef
  | (k, v) :: fs, key => if k = key then v else lookupField fs key

/-- Non-throwing member read `v.key`, defined on non-nullish values: objects
look the key up, arrays and strings expose `length`, other primitives yield
`undefined`. -/
def getD (v : JSVal) (key : String) : JSVal :=
  match v with
  | .obj fs => lookupField fs key
  | .arr xs => if key = "length" then .num xs.length else .undef
  | .str s => if key = "length" then .num s.length else .undef
  | _ => (.undef)

/-- Member read `v.key` with JavaScript's throwing semantics: reading a member
of `undefined`/`null` raises a `TypeError`. -/
def getField (v : JSVal) (key : String) : Except String JSVal :=
  match v with
  | .undef => .error ("TypeError: cannot read " ++ key ++ " of undefined")
  | .nul => .error ("TypeError: cannot read " ++ key ++ " of null")
  | v => .ok (getD v key)

/-- Optional-chained read `v?.key`: `undefined` on nullish `v`, else `v.key`. -/
def optGetD (v : JSVal) (key : String) : JSVal :=
  if isNullish v then .undef else getD v key

/-- Index read `v[i]` with JavaScript's throwing semantics on nullish `v`. -/
def getIdx (v : JSVal) (i : Nat) : Except String JSVal :=
  match v with
  | .undef => .error "TypeError: cannot index undefined"
  | .nul => .error "TypeError: cannot index null"
  | .arr xs => .ok (xs.getD i .undef)
  | .obj fs => .ok (lookupField fs (toString i))
  | .str s => .ok (if h : i < s.length then .str (String.mk [s.toList.get ⟨i, by simpa using h⟩]) else .undef)
  | _ => .ok (.undef)

/-- Non-throwing index read, defined on non-nullish values. -/
def getIdxD (v : JSVal) (i : Nat) : JSVal :=
  match v with
  | .arr xs => xs.getD i .undef
  | .obj fs => lookupField fs (toString i)
  | .str s => if h : i < s.length then .str (String.mk [s.toList.get ⟨i, by simpa using h⟩]) else .undef
  | _ => (.undef)

/-- Replace (or append) one key in an object's field list, keeping field
order — the semantics of both spread `{...o, k: v}` and `Object.assign(o, {k: v})`
for the key `k`. -/
def setFieldList : List (String × JSVal) → String → JSVal → List (String × JSVal)
  | [], k, v => [(k, v)]
  | (k0, v0) :: fs, k, v => if k0 = k then (k, v) :: fs else (k0, v0) :: setFieldList fs k v

/-- The object `{...base, k: v}` (also `Object.assign(base, {k: v})` when
`base` is an object).  A non-object base spreads to nothing, leaving `{k: v}`. -/
def objWith (base : JSVal) (k : String) (v : JSVal) : JSVal :=
  match base with
  | .obj fs => .obj (setFieldList fs k v)
  | _ => .obj [(k, v)]

/-- The element list of an iterable (models `[...v]` and `for (const x of v)`);
arrays yield their elements, strings their characters, anything else throws. -/
def asIterable : JSVal → Except String (List JSVal)
  | .arr xs => .ok xs
  | .str s => .ok (s.toList.map (fun c => .str (String.mk [c])))
  | _ => .error "TypeError: value is not iterable"

/-- The element list of an array, for array-method calls (`.map`, `.filter`,
`.indexOf`): anything that is not an array throws. -/
def asArray : JSVal → Except String (List JSVal)
  | .arr xs => .ok xs
  | _ => .error "TypeError: not an array method receiver"

/-- Strict equality `===` restricted to primitive values; two objects or
arrays compare unequal (reference semantics approximated conservatively). -/
def jsEqPrim : JSVal → JSVal → Bool
  | .undef, .undef => true
  | .nul, .nul => true
  | .bool a, .bool b => a = b
  | .num a, .num b => a = b
  | .str a, .str b => a = b
  | _, _ => false

/-- Is the value exactly the string `s` (models `v === 's'`)? -/
def isStrV (v : JSVal) (s : String) : Bool :=
  match v with
  | .str t => t = s
  | _ => false

/-- Is the value a string (models `typeof v === 'string'`)? -/
def isStrTy : JSVal → Bool
  | .str _ => true
  | _ => false

mutual
/-- Structural equality test, standing in for `===` where the source compares
a node against a node it already holds by reference (`Array.prototype.indexOf`). -/
def jsBeq : JSVal → JSVal → Bool
  | .undef, .undef => true
  | .nul, .nul => true
  | .bool a, .bool b => a = b
  | .num a, .num b => a = b
  | .str a, .str b => a = b
  | .arr xs, .arr ys => jsBeqList xs ys
  | .obj fs, .obj gs => jsBeqFields fs gs
  | _, _ => false
def jsBeqList : List JSVal → List JSVal → Bool
  | [], [] => true
  | x :: xs, y :: ys => jsBeq x y && jsBeqList xs ys
  | _, _ => false
def jsBeqFields : List (String × JSVal) → List (String × JSVal) → Bool
  | [], [] => true
  | (k, v) :: fs, (l, w) :: gs => k = l && jsBeq v w && jsBeqFields fs gs
  | _, _ => false
end

mutual
/-- Post-order pure tree transformation: rebuild children, then apply `f` to
the rebuilt value.  This is the effect of an in-place-mutating traversal,
expressed functionally. -/
def jsWalkPure (f : JSVal → JSVal) : JSVal → JSVal
  | .arr xs => f (.arr (jsWalkPureList f xs))
  | .obj fs => f (.obj (jsWalkPureFields f fs))
  | v => f v
def jsWalkPureList (f : JSVal → JSVal) : List JSVal → List JSVal
  | [] => []
  | x :: xs => jsWalkPure f x :: jsWalkPureList f xs
def jsWalkPureFields (f : JSVal → JSVal) : List (String × JSVal) → List (String × JSVal)
  | [] => []
  | (k, v) :: fs => (k, jsWalkPure f v) :: jsWalkPureFields f fs
end

mutual
/-- Post-order tree transformation with a fallible visitor: a visitor that
throws aborts the whole traversal, as an exception inside a callback does. -/
def jsWalkE (f : JSVal → Except String JSVal) : JSVal → Except String JSVal
  | .arr xs => do f (.arr (← jsWalkEList f xs))
  | .obj fs => do f (.obj (← jsWalkEFields f fs))
  | v => f v
def jsWalkEList (f : JSVal → Except String JSVal) : List JSVal → Except String (List JSVal)
  | [] => pure []
  | x :: xs => do pure ((← jsWalkE f x) :: (← jsWalkEList f xs))
def jsWalkEFields (f : JSVal → Except String JSVal) : List (String × JSVal) → Except String (List (String × JSVal))
  | [] => pure []
  | (k, v) :: fs => do pure ((k, ← jsWalkE f v) :: (← jsWalkEFields f fs))
end

/-- Modelled from the spec: the external tree-walking facility (`walk.ancestor`
of acorn-walk), "a generic tree-walking facility (traversal with ancestor
tracking, parameterized by a caller-supplied base visitor)".  It visits every
node of the tree, children before the node itself, and invokes the caller's
visitor on each node whose `type` matches the registered visitor type;
in-place mutation by the visitor is modelled by rebuilding the tree.  The
`base` configuration object is opaque to the core and left uninterpreted. -/
def walkAncestor (root : JSVal) (visitorType : String) (visitor : JSVal → JSVal) (base : JSVal) : JSVal :=
  let _ := base
  jsWalkPure (fun v => if isStrV (getD v "type") visitorType then visitor v else v) root

/-- Modelled from the spec, as `walkAncestor`, for a visitor whose body can
itself throw (the nested-function visitor re-enters the rewrite). -/
def walkAncestorE (root : JSVal) (visitorType : String) (visitor : JSVal → Except String JSVal) (base : JSVal) : Except String JSVal :=
  let _ := base
  jsWalkE (fun v => if isStrV (getD v "type") visitorType then visitor v else pure v) root

end JSVal

namespace ClassParser

open JSVal

/-- The two recognized compiled-class shapes (`enum ClassType`). -/
inductive ClassType where
  | Class : ClassType
  | NewClass : ClassType
deriving DecidableEq

/-- `interface ClassParsingContext`. -/
structure ClassParsingContext where
  name : JSVal
  superClass : JSVal
  protoIdentifier : JSVal
  classConstructor : JSVal
  functionBody : JSVal
  walkBase : JSVal

/-- The empty object cast `{} as ClassParsingContext` used by the nested-function
visitor: destructuring it yields `undefined` for every field. -/
def emptyContext : ClassParsingContext :=
  ⟨.undef, .undef, .undef, .undef, .undef, .undef⟩

/-- The record accumulated by `extractVariableReplacements`; absent fields are
`undefined` as in the source's empty object literal. -/
structure Replacements where
  thisProps : JSVal := .undef
  thisConstructor : JSVal := .undef
  thisMirror : JSVal := (.undef)

/-- `isValidIdentifier`. -/
def isValidIdentifier (node : JSVal) : Bool :=
  truthyV node && isStrV (getD node "type") "Identifier" && isStrTy (getD node "name")

/-- `isValidMemberExpression`. -/
def isValidMemberExpression (node : JSVal) : Bool :=
  truthyV node && isStrV (getD node "type") "MemberExpression" &&
    truthyV (getD node "object") && truthyV (getD node "property")

/-- `isValidFunctionExpression`. -/
def isValidFunctionExpression (node : JSVal) : Bool :=
  truthyV node && isStrV (getD node "type") "FunctionExpression" &&
    truthyV (getD node "body") && truthyV (getD (getD node "body") "body")

/-- The body of the inner loop of `extractVariableReplacements`, processing one
declarator against the accumulated record. -/
def extractDeclarator (r : Replacements) (declarator : JSVal) : Except String Replacements := do
  let idv ← getField declarator "id"
  let initv ← getField declarator "init"
  if !(isValidIdentifier idv) || !(isValidMemberExpression initv) then
    pure r
  else
    if isStrV (getD (getD initv "object") "type") "ThisExpression" &&
        isValidIdentifier (getD initv "property") then
      let propertyName := getD (getD initv "property") "name"
      if isStrV propertyName "props" then
        pure { r with thisProps := getD idv "name" }
      else if isStrV propertyName "constructor" then
        pure { r with thisConstructor := getD idv "name" }
      else
        pure r
    else if isStrV (getD initv "type") "ThisExpression" then
      pure { r with thisMirror := getD idv "name" }
    else
      pure r

/-- The body of the outer loop of `extractVariableReplacements`, processing
one top-level statement. -/
def extractStatement (r : Replacements) (node : JSVal) : Except String Replacements := do
  let nt ← getField node "type"
  if isStrV nt "VariableDeclaration" then do
    let declsV ← getField node "declarations"
    let ds ← asIterable declsV
    ds.foldlM extractDeclarator r
  else
    pure r

/-- `extractVariableReplacements`. -/
def extractVariableReplacements (functionBody : JSVal) : Except String Replacements := do
  let stmts ← asIterable functionBody
  stmts.foldlM extractStatement {}

/-- `cleanupVariableDeclarations`. -/
def cleanupVariableDeclarations (functionBody : JSVal) (replacements : Replacements) : Except String JSVal := do
  let stmts ← asArray functionBody
  let mapped ← stmts.mapM (fun node => do
    let nt ← getField node "type"
    if isStrV nt "VariableDeclaration" then do
      let declsV ← getField node "declarations"
      let ds ← asArray declsV
      let filteredDeclarations ← ds.filterM (fun declarator => do
        let idv ← getField declarator "id"
        if !(isValidIdentifier idv) then pure true
        else
          let idName := getD idv "name"
          pure (!(jsEqPrim idName replacements.thisProps ||
                  jsEqPrim idName replacements.thisConstructor ||
                  jsEqPrim idName replacements.thisMirror)))
      if filteredDeclarations.length > 0 then
        pure (objWith node "declarations" (.arr filteredDeclarations))
      else
        pure JSVal.nul
    else
      pure node)
  pure (.arr (mapped.filter truthyV))

/-- The `MemberExpression` visitor of `applyVariableReplacements`: the three
rewrite rules applied in sequence to one member-expression node. -/
def memberVisitor (replacements : Replacements) (node : JSVal) : JSVal :=
  if !(isValidMemberExpression node) then node
  else
    let node1 :=
      if truthyV replacements.thisProps && isValidIdentifier (getD node "object") &&
          jsEqPrim (getD (getD node "object") "name") replacements.thisProps then
        objWith node "object" (.obj [("type", .str "MemberExpression"),
          ("object", .obj [("type", .str "ThisExpression")]),
          ("property", .obj [("type", .str "Identifier"), ("name", .str "props")])])
      else node
    let node2 :=
      if isValidIdentifier (getD node1 "object") then
        if truthyV replacements.thisConstructor &&
            jsEqPrim (getD (getD node1 "object") "name") replacements.thisConstructor then
          objWith node1 "object" (.obj [("type", .str "ThisExpression")])
        else if truthyV replacements.thisMirror &&
            jsEqPrim (getD (getD node1 "object") "name") replacements.thisMirror then
          objWith node1 "object" (.obj [("type", .str "ThisExpression")])
        else node1
      else node1
    if isStrV (getD (getD node2 "object") "type") "ThisExpression" &&
        isValidIdentifier (getD node2 "property") &&
        isStrV (getD (getD node2 "property") "name") "constructor" then
      objWith node2 "type" (.str "ThisExpression")
    else node2

/-- `applyVariableReplacements`: walks the function expression rebuilt around
the (cleaned) body and returns the body, as the source's in-place mutation
leaves it. -/
def applyVariableReplacements (functionExpression functionBody : JSVal)
    (replacements : Replacements) (walkBase : JSVal) : JSVal :=
  let walked := walkAncestor
    (objWith functionExpression "body" (objWith (getD functionExpression "body") "body" functionBody))
    "MemberExpression" (memberVisitor replacements) walkBase
  getD (getD walked "body") "body"

/-- `parseFunctionBody`. -/
def parseFunctionBody (functionExpression : JSVal) (context : ClassParsingContext) : Except String JSVal := do
  let feBody ← getField functionExpression "body"
  let functionBody ← getField feBody "body"
  let variableReplacements ← extractVariableReplacements functionBody
  let cleanedBody ← cleanupVariableDeclarations functionBody variableReplacements
  pure (applyVariableReplacements functionExpression cleanedBody variableReplacements context.walkBase)

/-- The `Identifier` visitor of `replaceIdentifierReferences`. -/
def identVisitor (targetIdentifier : JSVal) (node : JSVal) : JSVal :=
  if jsEqPrim (getD node "name") targetIdentifier then
    objWith node "type" (.str "ThisExpression")
  else node

/-- `replaceIdentifierReferences`: the source mutates the clone in place; the
model returns the renamed body. -/
def replaceIdentifierReferences (functionExpression functionBodyClone : JSVal)
    (targetIdentifier : JSVal) (walkBase : JSVal) : JSVal :=
  let walked := walkAncestor
    (objWith functionExpression "body" (objWith (getD functionExpression "body") "body" functionBodyClone))
    "Identifier" (identVisitor targetIdentifier) walkBase
  getD (getD walked "body") "body"

/-- `isSpreadArgumentsPattern`. -/
def isSpreadArgumentsPattern (functionBody : List JSVal) (lastNode : JSVal)
    (functionExpression : JSVal) (superClass : JSVal) : Except String Bool := do
  if !(truthyV superClass) then pure false
  else do
    let params ← getField functionExpression "params"
    let plen ← getField params "length"
    if !(jsEqPrim plen (.num 0)) then pure false
    else if functionBody.length < 3 then pure false
    else do
      let firstStmt := functionBody.getD 0 .undef
      let secondStmt := functionBody.getD 1 .undef
      let thirdStmt := functionBody.getD 2 .undef
      if !(isStrV (optGetD firstStmt "type") "VariableDeclaration") then pure false
      else do
        let decls := getD firstStmt "declarations"
        let d0 ← getIdx decls 0
        let idv := if isNullish d0 then JSVal.undef else getD d0 "id"
        let idType := if isNullish idv then JSVal.undef else getD idv "type"
        let thirdExpr := getD thirdStmt "expression"
        let right := getD thirdExpr "right"
        pure (isStrV idType "Identifier" &&
          isStrV (optGetD secondStmt "type") "ForStatement" &&
          isStrV (optGetD thirdStmt "type") "ExpressionStatement" &&
          isStrV (optGetD thirdExpr "type") "AssignmentExpression" &&
          isStrV (optGetD right "type") "LogicalExpression" &&
          isStrV (optGetD (getD right "left") "type") "CallExpression" &&
          isStrV (getD right "operator") "||" &&
          isStrV (optGetD (getD right "right") "type") "ThisExpression" &&
          isStrV (optGetD lastNode "type") "ReturnStatement" &&
          isStrV (optGetD (getD lastNode "argument") "type") "Identifier" &&
          jsEqPrim (getD (getD lastNode "argument") "name") (getD (getD d0 "id") "name"))

/-- `isRegularSuperCallPattern`. -/
def isRegularSuperCallPattern (functionBody : List JSVal) (lastNode : JSVal)
    (superClass : JSVal) : Except String Bool := do
  if !(truthyV superClass) || functionBody.length < 2 then pure false
  else do
    let firstStmt := functionBody.getD 0 .undef
    let secondStmt := functionBody.getD 1 .undef
    if !(isStrV (optGetD firstStmt "type") "VariableDeclaration") then pure false
    else do
      let decls := getD firstStmt "declarations"
      let d0 ← getIdx decls 0
      let idv := if isNullish d0 then JSVal.undef else getD d0 "id"
      let idType := if isNullish idv then JSVal.undef else getD idv "type"
      let secondExpr := getD secondStmt "expression"
      let right := getD secondExpr "right"
      pure (isStrV idType "Identifier" &&
        isStrV (optGetD secondStmt "type") "ExpressionStatement" &&
        isStrV (optGetD secondExpr "type") "AssignmentExpression" &&
        isStrV (optGetD right "type") "LogicalExpression" &&
        isStrV (optGetD (getD right "left") "type") "CallExpression" &&
        isStrV (optGetD (getD (getD right "left") "callee") "type") "MemberExpression" &&
        isStrV (getD right "operator") "||" &&
        isStrV (optGetD (getD right "right") "type") "ThisExpression" &&
        isStrV (optGetD lastNode "type") "ReturnStatement" &&
        isStrV (optGetD (getD lastNode "argument") "type") "Identifier" &&
        jsEqPrim (getD (getD lastNode "argument") "name") (getD (getD d0 "id") "name"))

/-- `handleSpreadArguments`. -/
def handleSpreadArguments (functionBody : List JSVal) (functionExpression : JSVal)
    (walkBase : JSVal) : Except String JSVal := do
  let s0 := functionBody.getD 0 .undef
  let decls ← getField s0 "declarations"
  let d0 ← getIdx decls 0
  let idv ← getField d0 "id"
  let targetName ← getField idv "name"
  let clone := (functionBody.drop 3).dropLast
  let superStmt : JSVal := .obj [("type", .str "ExpressionStatement"),
    ("expression", .obj [("type", .str "CallExpression"),
      ("callee", .obj [("type", .str "Super")]),
      ("arguments", .arr [.obj [("type", .str "SpreadElement"),
        ("argument", .obj [("type", .str "Identifier"), ("name", .str "args")])]]),
      ("optional", .bool false)])]
  pure (replaceIdentifierReferences functionExpression (.arr (superStmt :: clone)) targetName walkBase)

/-- `handleRegularSuperCall`. -/
def handleRegularSuperCall (functionBody : List JSVal) (functionExpression : JSVal)
    (superClass : JSVal) (walkBase : JSVal) : Except String JSVal := do
  let _ := superClass
  let s0 := functionBody.getD 0 .undef
  let decls ← getField s0 "declarations"
  let d0 ← getIdx decls 0
  let idv ← getField d0 "id"
  let targetName ← getField idv "name"
  let s1 := functionBody.getD 1 .undef
  let expr ← getField s1 "expression"
  let right ← getField expr "right"
  let superCall ← getField right "left"
  let superArgsV ← getField superCall "arguments"
  let superArgsAll ← asIterable superArgsV
  let superArgs := superArgsAll.drop 1
  let clone := (functionBody.drop 2).dropLast
  let superStmt : JSVal := .obj [("type", .str "ExpressionStatement"),
    ("expression", .obj [("type", .str "CallExpression"),
      ("callee", .obj [("type", .str "Super")]),
      ("arguments", .arr superArgs),
      ("optional", .bool false)])]
  pure (replaceIdentifierReferences functionExpression (.arr (superStmt :: clone)) targetName walkBase)

/-- `processNestedFunctions`: walks the rebuilt function expression with the
`FunctionExpression` visitor that re-runs `parseFunctionBody` on each visited
function (the walk also reaches the root, as the traversal visits it too). -/
def processNestedFunctions (functionExpression functionBodyClone walkBase : JSVal) : Except String JSVal := do
  let walked ← walkAncestorE
    (objWith functionExpression "body" (objWith (getD functionExpression "body") "body" functionBodyClone))
    "FunctionExpression"
    (fun node =>
      if !(isValidFunctionExpression node) then pure node
      else do
        let pb ← parseFunctionBody node emptyContext
        pure (objWith node "body" (objWith (getD node "body") "body" pb)))
    walkBase
  pure (getD (getD walked "body") "body")

/-- `parseConstructor`. -/
def parseConstructor (functionExpression : JSVal) (context : ClassParsingContext) : Except String JSVal := do
  let feBody ← getField functionExpression "body"
  let functionBodyV ← getField feBody "body"
  let stmts ← asIterable functionBodyV
  let lastNode := (stmts.getLast?).getD .undef
  if stmts.isEmpty || !(truthyV lastNode) then
    pure functionExpression
  else do
    let isSpread ← isSpreadArgumentsPattern stmts lastNode functionExpression context.superClass
    let functionBodyClone ←
      if isSpread then
        handleSpreadArguments stmts functionExpression context.walkBase
      else do
        let isRegular ← isRegularSuperCallPattern stmts lastNode context.superClass
        if isRegular then
          handleRegularSuperCall stmts functionExpression context.superClass context.walkBase
        else
          pure (JSVal.arr stmts)
    let finalBody ← processNestedFunctions functionExpression functionBodyClone context.walkBase
    pure (objWith (objWith functionExpression "params"
        (if isSpread then
          .arr [.obj [("type", .str "RestElement"),
            ("argument", .obj [("type", .str "Identifier"), ("name", .str "args")])]]
        else getD functionExpression "params"))
      "body" (objWith feBody "body" finalBody))

/-- `createConstructorMethod`. -/
def createConstructorMethod (classConstructor : JSVal) (context : ClassParsingContext) : Except String JSVal := do
  let ccBody ← getField classConstructor "body"
  let pb ← parseFunctionBody classConstructor context
  let constructorExpression :=
    objWith (objWith (objWith classConstructor "type" (.str "FunctionExpression"))
      "id" JSVal.nul) "body" (objWith ccBody "body" pb)
  let value ← parseConstructor constructorExpression context
  pure (.obj [("type", .str "MethodDefinition"), ("static", .bool false), ("computed", .bool false),
    ("key", .obj [("type", .str "Identifier"), ("name", .str "constructor")]),
    ("kind", .str "method"), ("value", value)])

/-- `createMethodsFromFunctionBody`. -/
def createMethodsFromFunctionBody (protoIdentifier classConstructor : JSVal)
    (functionBody : JSVal) (context : ClassParsingContext) : Except String (List JSVal) := do
  let stmts ← asArray functionBody
  stmts.mapM (fun statement => do
    let st ← getField statement "type"
    if !(isStrV st "ExpressionStatement") then pure JSVal.nul
    else do
      let expr ← getField statement "expression"
      let et ← getField expr "type"
      if !(isStrV et "AssignmentExpression") then pure JSVal.nul
      else do
        let left := getD expr "left"
        let right := getD expr "right"
        if !(isValidMemberExpression left) || !(isValidFunctionExpression right) then pure JSVal.nul
        else if !(isValidIdentifier (getD left "object")) || !(isValidIdentifier (getD left "property")) then
          pure JSVal.nul
        else do
          let objectName := getD (getD left "object") "name"
          let methodName := getD (getD left "property") "name"
          let ccId ← getField classConstructor "id"
          let isValidMethodAssignment :=
            jsEqPrim objectName protoIdentifier ||
              (truthyV ccId && jsEqPrim objectName (getD ccId "name"))
          if !isValidMethodAssignment then pure JSVal.nul
          else do
            let isStatic : JSVal :=
              if truthyV ccId then .bool (jsEqPrim objectName (getD ccId "name")) else ccId
            let pb ← parseFunctionBody right context
            pure (.obj [("type", .str "MethodDefinition"), ("static", isStatic), ("computed", .bool false),
              ("key", .obj [("type", .str "Identifier"), ("name", methodName)]),
              ("kind", .str "method"),
              ("value", objWith (objWith right "id" JSVal.nul)
                "body" (objWith (getD right "body") "body" pb))]))

/-- `buildClassBody`. -/
def buildClassBody (protoIdentifier classConstructor : JSVal) (functionBody : JSVal)
    (context : ClassParsingContext) : Except String (List JSVal) := do
  let ccBody ← getField classConstructor "body"
  let ccStmts ← getField ccBody "body"
  let first ← getIdx ccStmts 0
  let firstType := if isNullish first then JSVal.undef else getD first "type"
  if !(isStrV firstType "ReturnStatement") then do
    let ctor ← createConstructorMethod classConstructor context
    let methods ← createMethodsFromFunctionBody protoIdentifier classConstructor functionBody context
    pure (ctor :: methods)
  else
    createMethodsFromFunctionBody protoIdentifier classConstructor functionBody context

/-- `parseRegularClass`. -/
def parseRegularClass (node parent : JSVal) (context : ClassParsingContext) : Except String JSVal := do
  let _ := node
  let classBody ← buildClassBody context.protoIdentifier context.classConstructor context.functionBody context
  pure (objWith (objWith (objWith (objWith parent "type" (.str "ClassDeclaration"))
      "id" (.obj [("type", .str "Identifier"), ("name", context.name)]))
      "superClass" context.superClass)
      "body" (.obj [("type", .str "ClassBody"), ("body", .arr (classBody.filter truthyV))]))

/-- `Array.prototype.indexOf` under structural equality: the first index whose
element matches, `-1` when none does. -/
def jsIndexOf (xs : List JSVal) (v : JSVal) : Int :=
  let i := xs.findIdx (fun x => jsBeq x v)
  if i < xs.length then (i : Int) else -1

/-- The positional filter `declarations.filter((_, i) => i !== declaratorIndex)`,
scanning from position `i`. -/
def filterOutIndexFrom (idx : Int) (i : Nat) : List JSVal → List JSVal
  | [] => []
  | x :: xs =>
    if (i : Int) = idx then filterOutIndexFrom idx (i + 1) xs
    else x :: filterOutIndexFrom idx (i + 1) xs

/-- The class-declaration object built by `parseNewClass` as the rewritten
declarator's new callee, with `classBody.filter(Boolean)` as its body. -/
def newClassCallee (name superClass : JSVal) (classBody : List JSVal) : JSVal :=
  .obj [("type", .str "ClassDeclaration"),
    ("id", .obj [("type", .str "Identifier"), ("name", name)]),
    ("superClass", superClass),
    ("body", .obj [("type", .str "ClassBody"), ("body", .arr (classBody.filter truthyV))])]

/-- `parseNewClass`. -/
def parseNewClass (node parent : JSVal) (context : ClassParsingContext) : Except String JSVal := do
  let classBody ← buildClassBody context.protoIdentifier context.classConstructor context.functionBody context
  let declsV ← getField parent "declarations"
  let decls ← asArray declsV
  let declaratorIndex := jsIndexOf decls node
  let otherDeclarations := filterOutIndexFrom declaratorIndex 0 decls
  let initV ← getField node "init"
  pure (objWith parent "declarations" (.arr (otherDeclarations ++
    [objWith node "init" (objWith initV "callee"
      (newClassCallee context.name context.superClass classBody))])))

/-- `parseClassByType`. -/
def parseClassByType (classType : ClassType) (node parent : JSVal)
    (context : ClassParsingContext) : Except String JSVal :=
  match classType with
  | .Class => parseRegularClass node parent context
  | .NewClass => parseNewClass node parent context

/-- `buildClassContext`; `pc` is the external printer `recast.print(.).code`. -/
def buildClassContext (pc : JSVal → String) (node parent name : JSVal) : Except String ClassParsingContext := do
  let _ := parent
  let initV ← getField node "init"
  let rawFunction ← getField initV "callee"
  let rfBody ← getField rawFunction "body"
  let functionBody ← getField rfBody "body"
  let fb2 ← getIdx functionBody 2
  let protoIdentifier ←
    if isNullish fb2 then pure JSVal.undef
    else do
      let decls := getD fb2 "declarations"
      let d0 ← getIdx decls 0
      if isNullish d0 then pure JSVal.undef
      else
        let idv := getD d0 "id"
        pure (if isNullish idv then JSVal.undef else getD idv "name")
  let classConstructor ← getIdx functionBody 1
  let ccId ← getField classConstructor "id"
  let superClass ←
    if truthyV ccId then do
      let fb0 ← getIdx functionBody 0
      if isStrV (optGetD fb0 "type") "ExpressionStatement" then
        let expr := getD fb0 "expression"
        if isStrV (optGetD expr "type") "CallExpression" then
          let args := getD expr "arguments"
          if jsEqPrim (optGetD args "length") (.num 2) then do
            let arg0 ← getIdx args 0
            if pc arg0 = pc ccId then do
              let initArgs ← getField initV "arguments"
              getIdx initArgs 0
            else pure JSVal.nul
          else pure JSVal.nul
        else pure JSVal.nul
      else pure JSVal.nul
    else pure JSVal.nul
  pure { name := name, superClass := superClass, protoIdentifier := protoIdentifier,
         classConstructor := classConstructor, functionBody := functionBody,
         walkBase := JSVal.obj [] }

/-- `buildNewClassContext`. -/
def buildNewClassContext (pc : JSVal → String) (node parent name : JSVal) : Except String ClassParsingContext := do
  let _ := parent
  let initV ← getField node "init"
  let calleeV ← getField initV "callee"
  let exprV ← getField calleeV "expression"
  let rawFunction ← getField exprV "callee"
  let rfBody ← getField rawFunction "body"
  let functionBody ← getField rfBody "body"
  let fb2 ← getIdx functionBody 2
  let protoIdentifier ←
    if isNullish fb2 then pure JSVal.undef
    else do
      let decls := getD fb2 "declarations"
      let d0 ← getIdx decls 0
      if isNullish d0 then pure JSVal.undef
      else
        let idv := getD d0 "id"
        pure (if isNullish idv then JSVal.undef else getD idv "name")
  let classConstructor ← getIdx functionBody 1
  let ccId ← getField classConstructor "id"
  let superClass ←
    if truthyV ccId then do
      let fb0 ← getIdx functionBody 0
      if isStrV (optGetD fb0 "type") "ExpressionStatement" then
        let expr := getD fb0 "expression"
        if isStrV (optGetD expr "type") "CallExpression" then
          let args := getD expr "arguments"
          if jsEqPrim (optGetD args "length") (.num 2) then do
            let arg0 ← getIdx args 0
            if pc arg0 = pc ccId then do
              let outerArgs ← getField exprV "arguments"
              getIdx outerArgs 0
            else pure JSVal.nul
          else pure JSVal.nul
        else pure JSVal.nul
      else pure JSVal.nul
    else pure JSVal.nul
  pure { name := name, superClass := superClass, protoIdentifier := protoIdentifier,
         classConstructor := classConstructor, functionBody := functionBody,
         walkBase := JSVal.obj [] }

/-- `buildParsingContext`: the try/catch turns every exception into `null`. -/
def buildParsingContext (pc : JSVal → String) (node parent : JSVal)
    (classType : ClassType) : Option ClassParsingContext :=
  let attempt : Except String (Option ClassParsingContext) := do
    let idV ← getField node "id"
    let name := if isNullish idV then JSVal.undef else getD idV "name"
    if !(truthyV name) then pure none
    else
      match classType with
      | .Class => do
        let c ← buildClassContext pc node parent name
        pure (some c)
      | .NewClass => do
        let c ← buildNewClassContext pc node parent name
        pure (some c)
  match attempt with
  | .error _ => none
  | .ok r => r

/-- `findClassType`. -/
def findClassType (node parent : JSVal) : Except String (Option ClassType) := do
  let pt ← getField parent "type"
  if isStrV pt "VariableDeclaration" then do
    let initV ← getField node "init"
    if isStrV (optGetD initV "type") "CallExpression" &&
        isStrV (optGetD (getD initV "callee") "type") "FunctionExpression" then
      pure (some .Class)
    else if isStrV (optGetD initV "type") "NewExpression" &&
        isStrV (optGetD (getD initV "callee") "type") "ParenthesizedExpression" then
      pure (some .NewClass)
    else
      pure none
  else
    pure none

/-- `parse`, the public entry point. -/
def parse (pc : JSVal → String) (node parent walkBase : JSVal) : Except String JSVal := do
  if !(truthyV node) || !(truthyV parent) || !(truthyV walkBase) then
    pure parent
  else do
    let classTypeOpt ← findClassType node parent
    match classTypeOpt with
    | none => pure parent
    | some classType =>
      match buildParsingContext pc node parent classType with
      | none => pure parent
      | some context => parseClassByType classType node parent context

end ClassParser

namespace JSVal

theorem isStrV_iff (v : JSVal) (s : String) : isStrV v s = true ↔ v = .str s := by
  cases v <;> simp [isStrV]

theorem getField_of_not_nullish {v : JSVal} (k : String) (h : isNullish v = false) :
    getField v k = .ok (getD v k) := by
  cases v <;> simp_all [isNullish, getField]

theorem not_nullish_of_getField_ok {v w : JSVal} {k : String}
    (h : getField v k = .ok w) : isNullish v = false := by
  cases v <;> simp_all [isNullish, getField]

theorem getD_of_getField_ok {v w : JSVal} {k : String}
    (h : getField v k = .ok w) : getD v k = w := by
  cases v <;> simp_all [getField]

theorem exists_obj_of_getD_str {v : JSVal} {k : String} {s : String}
    (h : getD v k = .str s) : ∃ fs, v = .obj fs := by
  cases v <;> simp_all [getD] <;> split at h <;> simp_all

theorem exists_obj_of_getD_obj {v : JSVal} {k : String} {gs : List (String × JSVal)}
    (h : getD v k = .obj gs) : ∃ fs, v = .obj fs := by
  cases v <;> simp_all [getD] <;> split at h <;> simp_all

theorem lookup_set_same (fs : List (String × JSVal)) (k : String) (v : JSVal) :
    lookupField (setFieldList fs k v) k = v := by
  induction fs with
  | nil => simp [setFieldList, lookupField]
  | cons kv fs ih =>
    obtain ⟨k0, v0⟩ := kv
    by_cases h : k0 = k <;> simp [setFieldList, lookupField, h, ih]

theorem lookup_set_ne (fs : List (String × JSVal)) (k v : _) {k2 : String} (h : k2 ≠ k) :
    lookupField (setFieldList fs k v) k2 = lookupField fs k2 := by
  induction fs with
  | nil => simp [setFieldList, lookupField, Ne.symm h]
  | cons kv fs ih =>
    obtain ⟨k0, v0⟩ := kv
    by_cases h0 : k0 = k
    · subst h0
      simp [setFieldList, lookupField, Ne.symm h]
    · simp [setFieldList, lookupField, h0, ih]

theorem getD_objWith_same (b : JSVal) (k : String) (v : JSVal) :
    getD (objWith b k v) k = v := by
  cases b <;> simp [objWith, getD, lookupField, lookup_set_same]

theorem getD_objWith_ne (b : JSVal) (k : String) (v : JSVal) {k2 : String} (h : k2 ≠ k) :
    getD (objWith b k v) k2 =
      (match b with | .obj fs => getD (.obj fs) k2 | _ => .undef) := by
  cases b <;> simp [objWith, getD, lookupField, Ne.symm h, lookup_set_ne _ _ _ h]

theorem truthyV_objWith (b : JSVal) (k : String) (v : JSVal) :
    truthyV (objWith b k v) = true := by
  cases b <;> simp [objWith, truthyV]

theorem isNullish_objWith (b : JSVal) (k : String) (v : JSVal) :
    isNullish (objWith b k v) = false := by
  cases b <;> simp [objWith, isNullish]

theorem exists_obj_objWith (b : JSVal) (k : String) (v : JSVal) :
    ∃ fs, objWith b k v = .obj fs := by
  cases b <;> simp [objWith]

theorem not_nullish_of_optGetD_str {v : JSVal} {k s : String}
    (h : optGetD v k = .str s) : isNullish v = false ∧ getD v k = .str s := by
  unfold optGetD at h
  split at h
  · cases h
  · simp_all

end JSVal

namespace ClassParser

open JSVal

/-- The identifier-renaming step applied at one node: the visitor of the
renaming walk together with its type dispatch. -/
def identDispatch (targetIdentifier : JSVal) (v : JSVal) : JSVal :=
  if isStrV (getD v "type") "Identifier" then identVisitor targetIdentifier v else v

/-- The member-rewriting step applied at one node: the visitor of the
de-aliasing walk together with its type dispatch. -/
def memberDispatch (replacements : Replacements) (v : JSVal) : JSVal :=
  if isStrV (getD v "type") "MemberExpression" then memberVisitor replacements v else v

/-- The `super(...)` expression statement built by `handleRegularSuperCall`. -/
def superCallStmt (superArgs : List JSVal) : JSVal :=
  .obj [("type", .str "ExpressionStatement"),
    ("expression", .obj [("type", .str "CallExpression"),
      ("callee", .obj [("type", .str "Super")]),
      ("arguments", .arr superArgs),
      ("optional", .bool false)])]

end ClassParser

section Fixtures

open JSVal ClassParser

/-- A concrete stand-in for the external printer, used when instantiating
theorems on concrete inputs; the facts exhibited below do not depend on the
printer because the nodes compared by it are structurally identical. -/
def printStub : JSVal → String := fun _ => ""

/-- Concrete `Identifier` node. -/
def identN (s : String) : JSVal := .obj [("type", .str "Identifier"), ("name", .str s)]

/-- Concrete `ThisExpression` node. -/
def thisE : JSVal := .obj [("type", .str "ThisExpression")]

/-- Concrete non-computed `MemberExpression` node. -/
def memberE (o : JSVal) (p : String) : JSVal :=
  .obj [("type", .str "MemberExpression"), ("object", o), ("property", identN p),
    ("computed", .bool false)]

/-- Concrete single-declarator `var` statement. -/
def varDecl1 (nm : String) (init : JSVal) : JSVal :=
  .obj [("type", .str "VariableDeclaration"), ("kind", .str "var"),
    ("declarations", .arr [.obj [("type", .str "VariableDeclarator"), ("id", identN nm),
      ("init", init)]])]

/-- Concrete expression statement. -/
def exprStmt (e : JSVal) : JSVal := .obj [("type", .str "ExpressionStatement"), ("expression", e)]

/-- Concrete return statement. -/
def retStmt (e : JSVal) : JSVal := .obj [("type", .str "ReturnStatement"), ("argument", e)]

/-- A parent variable-declaration node. -/
def parentVD : JSVal := .obj [("type", .str "VariableDeclaration")]

/-- A factory whose second body statement is an expression statement, not a
function: shape classification and context extraction succeed, but
`buildClassBody` then reads `classConstructor.body.body` and throws. -/
def throwNode : JSVal :=
  .obj [("type", .str "VariableDeclarator"), ("id", identN "A"),
    ("init", .obj [("type", .str "CallExpression"),
      ("callee", .obj [("type", .str "FunctionExpression"),
        ("body", .obj [("type", .str "BlockStatement"),
          ("body", .arr [.obj [("type", .str "EmptyStatement")],
            .obj [("type", .str "ExpressionStatement")]])])]),
      ("arguments", .arr [])])]

/-- `function A(x){ var self = this; return self.y; }` — the failing input for
the `this`-mirror de-aliasing. -/
def selfAliasFn : JSVal :=
  .obj [("type", .str "FunctionExpression"), ("params", .arr []),
    ("body", .obj [("type", .str "BlockStatement"),
      ("body", .arr [varDecl1 "self" thisE, retStmt (memberE (identN "self") "y")])])]

end Fixtures

section FixturesMore

open JSVal ClassParser

/-- `function(){}` with an empty statement list. -/
def emptyBodyFn : JSVal := .obj [("type", .str "FunctionExpression"), ("params", .arr []),
  ("body", .obj [("type", .str "BlockStatement"), ("body", .arr [])])]

/-- A matched direct-factory candidate without a declared identifier: the
classifier matches, but context building fails on the missing name. -/
def noNameNode : JSVal :=
  .obj [("type", .str "VariableDeclarator"),
    ("init", .obj [("type", .str "CallExpression"),
      ("callee", .obj [("type", .str "FunctionExpression"),
        ("body", .obj [("type", .str "BlockStatement"), ("body", .arr [])])]),
      ("arguments", .arr [])])]

/-- Two top-level declarations aliasing `this.props`. -/
def twoPropsAliases : JSVal :=
  .arr [varDecl1 "a" (memberE thisE "props"), varDecl1 "b" (memberE thisE "props")]

end FixturesMore

open JSVal ClassParser

/-- C10: for every constructor function whose body statement list is empty,
`parseConstructor` returns the function expression unchanged — no super-call
pattern detection, rest-parameter rewrite, or nested-function processing
touches it. -/
theorem parseConstructor_empty_body (fe feBody : JSVal) (context : ClassParsingContext)
    (h1 : getField fe "body" = .ok feBody) (h2 : getField feBody "body" = .ok (.arr [])) :
    parseConstructor fe context = .ok fe := by
  unfold parseConstructor
  simp [h1, h2, Bind.bind, Except.bind, asIterable, pure, Except.pure]

theorem parseConstructor_empty_body_w :
    parseConstructor emptyBodyFn emptyContext = .ok emptyBodyFn :=
  parseConstructor_empty_body emptyBodyFn
    (.obj [("type", .str "BlockStatement"), ("body", .arr [])]) emptyContext rfl rfl

/-- C1 counterexample: on this concrete input — present node, parent and
walkBase, shape classification and context extraction both succeeding — the
rewrite reads `classConstructor.body.body` of an expression statement and the
resulting exception propagates out of `parse`, so `parse` does not always
either rewrite or return the parent unchanged. -/
theorem parse_error_propagation_cex :
    ∃ e, parse printStub throwNode parentVD (.str "cfg") = .error e := ⟨_, rfl⟩

/-- C1 (amended): when the node, parent or walkBase argument is absent, or
shape classification finds no match, or context extraction fails (every
exception inside it is caught and downgraded), `parse` returns the parent
unchanged; exceptions raised after a context is successfully built are not
covered and can propagate. -/
theorem parse_failure_degrades (pc : JSVal → String) (n p w : JSVal) :
    ((truthyV n = false ∨ truthyV p = false ∨ truthyV w = false) → parse pc n p w = .ok p) ∧
    (findClassType n p = .ok none → parse pc n p w = .ok p) ∧
    (∀ ct, findClassType n p = .ok (some ct) → buildParsingContext pc n p ct = none →
      parse pc n p w = .ok p) := by
  unfold parse
  refine ⟨fun h => ?_, fun h => ?_, fun ct h1 h2 => ?_⟩
  · rcases h with h | h | h <;> simp [h, pure, Except.pure]
  · by_cases hg : (!truthyV n || !truthyV p || !truthyV w) = true
    · simp [hg, pure, Except.pure]
    · simp [hg, h, Bind.bind, Except.bind, pure, Except.pure]
  · by_cases hg : (!truthyV n || !truthyV p || !truthyV w) = true
    · simp [hg, pure, Except.pure]
    · simp [hg, h1, h2, Bind.bind, Except.bind, pure, Except.pure]

theorem parse_failure_degrades_w :
    parse printStub .undef parentVD (.str "cfg") = .ok parentVD ∧
    parse printStub (.str "n") (.obj []) (.str "cfg") = .ok (.obj []) ∧
    parse printStub noNameNode parentVD (.str "cfg") = .ok parentVD :=
  ⟨(parse_failure_degrades printStub .undef parentVD (.str "cfg")).1 (Or.inl rfl),
   (parse_failure_degrades printStub (.str "n") (.obj []) (.str "cfg")).2.1 rfl,
   (parse_failure_degrades printStub noNameNode parentVD (.str "cfg")).2.2 .Class rfl rfl⟩

/-- C2: evaluating the de-aliasing pass at the failing input
`function(){ var self = this; return self.y; }` — the alias scan records
nothing (the declarator guard requires a member-expression initializer, which
makes the `ThisExpression` branch unreachable), the declaration survives, and
`self.y` is not rewritten; the body comes back unchanged instead of becoming
`return this.y;`. -/
theorem mirror_alias_untouched :
    extractVariableReplacements
        (.arr [varDecl1 "self" thisE, retStmt (memberE (identN "self") "y")]) =
      .ok { thisProps := .undef, thisConstructor := .undef, thisMirror := .undef } ∧
    parseFunctionBody selfAliasFn emptyContext =
      .ok (.arr [varDecl1 "self" thisE, retStmt (memberE (identN "self") "y")]) :=
  ⟨rfl, rfl⟩

/-- C4 counterexample: with two top-level declarations both aliasing
`this.props` (first named `a`, then `b`), the extraction records the LAST
declaration's name `b`, not the first one's `a` — refuting first-match-wins. -/
theorem extract_first_wins_cex :
    extractVariableReplacements twoPropsAliases =
      .ok { thisProps := .str "b", thisConstructor := .undef, thisMirror := .undef } ∧
    JSVal.str "b" ≠ JSVal.str "a" :=
  ⟨rfl, fun h => by injection h with h2; exact absurd h2 (by decide)⟩

/-- C3 counterexample: on a concrete matched candidate the parsing context
that `parse` builds and hands to the rewrite carries `walkBase = {}` — a fresh
empty object — rather than the `walkBase` value (`"cfg"`) given to `parse`. -/
theorem walkBase_dropped_cex :
    ∃ ctx, buildParsingContext printStub throwNode parentVD ClassType.Class = some ctx ∧
      ctx.walkBase = .obj [] ∧ ctx.walkBase ≠ .str "cfg" := by
  refine ⟨_, rfl, rfl, fun h => ?_⟩
  cases h

section FixturesWrapped

open JSVal ClassParser

/-- Constructor returning immediately (so class assembly emits no constructor
method and the concrete rewrites below evaluate without tree walks). -/
def wCtor : JSVal := .obj [("type", .str "FunctionDeclaration"),
  ("body", .obj [("type", .str "BlockStatement"), ("body", .arr [retStmt (identN "B")])])]

/-- The wrapped factory `new (function(){ ...; function B... })()`. -/
def wFactoryFn : JSVal := .obj [("type", .str "FunctionExpression"),
  ("body", .obj [("type", .str "BlockStatement"),
    ("body", .arr [.obj [("type", .str "EmptyStatement")], wCtor])])]

/-- The parenthesized call inside the `new` expression. -/
def wCallExpr : JSVal := .obj [("type", .str "CallExpression"), ("callee", wFactoryFn),
  ("arguments", .arr [])]

/-- The `new` expression's parenthesized callee. -/
def wCallee : JSVal := .obj [("type", .str "ParenthesizedExpression"), ("expression", wCallExpr)]

/-- The wrapped-factory declarator initializer. -/
def wInit : JSVal := .obj [("type", .str "NewExpression"), ("callee", wCallee), ("arguments", .arr [])]

/-- The wrapped-factory candidate declarator. -/
def wNode : JSVal := .obj [("type", .str "VariableDeclarator"), ("id", identN "B"), ("init", wInit)]

/-- Its parent declaration statement. -/
def wParent : JSVal := .obj [("type", .str "VariableDeclaration"), ("declarations", .arr [wNode])]

/-- The context extracted from `throwNode` (checked by the witness below). -/
def throwCtx : ClassParsingContext :=
  ⟨.str "A", .nul, .undef, .obj [("type", .str "ExpressionStatement")],
   .arr [.obj [("type", .str "EmptyStatement")], .obj [("type", .str "ExpressionStatement")]],
   .obj []⟩

/-- The context extracted from the wrapped fixture. -/
def wCtx : ClassParsingContext :=
  ⟨.str "B", .nul, .undef, wCtor,
   .arr [.obj [("type", .str "EmptyStatement")], wCtor], .obj []⟩

end FixturesWrapped

/-- C3 (amended): the walkBase received by `parse` is used only for the
initial presence check; the context builders store a fresh empty object as the
context's `walkBase` — the value the rewrite's walks then receive — and the
result of `parse` depends on its walkBase argument only through truthiness. -/
theorem walkBase_not_forwarded (pc : JSVal → String) (n p nm : JSVal) :
    (∀ ctx, buildClassContext pc n p nm = .ok ctx → ctx.walkBase = .obj []) ∧
    (∀ ctx, buildNewClassContext pc n p nm = .ok ctx → ctx.walkBase = .obj []) ∧
    (∀ w w2 : JSVal, truthyV w = truthyV w2 → parse pc n p w = parse pc n p w2) := by
  refine ⟨fun ctx h => ?_, fun ctx h => ?_, fun w w2 hw => ?_⟩
  · unfold buildClassContext at h
    simp only [Bind.bind, Except.bind] at h
    repeat' split at h
    all_goals cases h
    all_goals rfl
  · unfold buildNewClassContext at h
    simp only [Bind.bind, Except.bind] at h
    repeat' split at h
    all_goals cases h
    all_goals rfl
  · unfold parse
    rw [hw]

theorem walkBase_not_forwarded_w :
    throwCtx.walkBase = .obj [] ∧ wCtx.walkBase = .obj [] ∧
    parse printStub throwNode parentVD (.str "a") = parse printStub throwNode parentVD (.str "b") :=
  ⟨(walkBase_not_forwarded printStub throwNode parentVD (.str "A")).1 throwCtx rfl,
   (walkBase_not_forwarded printStub wNode wParent (.str "B")).2.1 wCtx rfl,
   (walkBase_not_forwarded printStub throwNode parentVD (.str "A")).2.2 (.str "a") (.str "b") rfl⟩

namespace ClassParser

open JSVal

/-- Total element list: arrays and strings as in `asIterable`, else empty. -/
def toListD : JSVal → List JSVal
  | .arr xs => xs
  | .str s => s.toList.map (fun c => .str (String.mk [c]))
  | _ => []

/-- Does one declarator alias `this.props` (valid identifier bound to a member
access on `this` whose property is the identifier `props`)? -/
def isPropsAliasDecl (d : JSVal) : Bool :=
  isValidIdentifier (getD d "id") && isValidMemberExpression (getD d "init") &&
    isStrV (getD (getD (getD d "init") "object") "type") "ThisExpression" &&
    isValidIdentifier (getD (getD d "init") "property") &&
    isStrV (getD (getD (getD d "init") "property") "name") "props"

/-- Does one declarator alias `this.constructor`? -/
def isCtorAliasDecl (d : JSVal) : Bool :=
  isValidIdentifier (getD d "id") && isValidMemberExpression (getD d "init") &&
    isStrV (getD (getD (getD d "init") "object") "type") "ThisExpression" &&
    isValidIdentifier (getD (getD d "init") "property") &&
    isStrV (getD (getD (getD d "init") "property") "name") "constructor"

/-- The declarators carried by one top-level statement (empty unless it is a
variable declaration). -/
def declaratorsOfStmt (s : JSVal) : List JSVal :=
  if isStrV (getD s "type") "VariableDeclaration" then toListD (getD s "declarations") else []

/-- The name bound by the LAST declarator matching `p` across the given
statements — each later match overwrites the earlier one — or `dflt` when no
declarator matches.  This is the statement of the amended invariant, written
independently of the extraction loop. -/
def lastAliasName (p : JSVal → Bool) (stmts : List JSVal) (dflt : JSVal) : JSVal :=
  (((stmts.map declaratorsOfStmt).flatten).filter p).foldl (fun _ d => getD (getD d "id") "name") dflt

theorem asIterable_toListD {v : JSVal} {l : List JSVal} (h : asIterable v = .ok l) :
    toListD v = l := by
  cases v <;> simp_all [asIterable, toListD]

theorem validMember_not_this {v : JSVal} (h : isValidMemberExpression v = true) :
    isStrV (getD v "type") "ThisExpression" = false := by
  unfold isValidMemberExpression at h
  simp only [Bool.and_eq_true] at h
  rw [(isStrV_iff _ _).mp h.1.1.2]
  rfl

theorem extractDeclarator_fields {r r2 : Replacements} {d : JSVal}
    (h : extractDeclarator r d = .ok r2) :
    r2.thisMirror = r.thisMirror ∧
    r2.thisProps = (if isPropsAliasDecl d then getD (getD d "id") "name" else r.thisProps) ∧
    r2.thisConstructor = (if isCtorAliasDecl d then getD (getD d "id") "name" else r.thisConstructor) := by
  unfold extractDeclarator at h
  simp only [Bind.bind, Except.bind] at h
  cases hid : getField d "id" with
  | error e => rw [hid] at h; cases h
  | ok idv =>
    rw [hid] at h
    cases hin : getField d "init" with
    | error e => rw [hin] at h; cases h
    | ok initv =>
      rw [hin] at h
      have hid2 := getD_of_getField_ok hid
      have hin2 := getD_of_getField_ok hin
      unfold isPropsAliasDecl isCtorAliasDecl
      rw [hid2, hin2]
      by_cases hvm : isValidMemberExpression initv = true
      · have hnt : isStrV (getD initv "type") "ThisExpression" = false := validMember_not_this hvm
        cases hvi : isValidIdentifier idv <;>
        cases hot : isStrV (getD (getD initv "object") "type") "ThisExpression" <;>
        cases hvp : isValidIdentifier (getD initv "property") <;>
        cases hpp : isStrV (getD (getD initv "property") "name") "props" <;>
        cases hpc : isStrV (getD (getD initv "property") "name") "constructor" <;>
          simp_all [pure, Except.pure, isStrV_iff]
        all_goals rw [← h]
        all_goals exact ⟨rfl, rfl, rfl⟩
      · rw [Bool.not_eq_true] at hvm
        simp_all [pure, Except.pure]

theorem extractDeclList (ds : List JSVal) : ∀ (r r2 : Replacements),
    ds.foldlM extractDeclarator r = .ok r2 →
    r2.thisMirror = r.thisMirror ∧
    r2.thisProps =
      ((ds.filter isPropsAliasDecl).foldl (fun _ d => getD (getD d "id") "name") r.thisProps) ∧
    r2.thisConstructor =
      ((ds.filter isCtorAliasDecl).foldl (fun _ d => getD (getD d "id") "name") r.thisConstructor) := by
  induction ds with
  | nil =>
    intro r r2 h
    simp only [List.foldlM_nil, pure, Except.pure, Except.ok.injEq] at h
    subst h
    exact ⟨rfl, rfl, rfl⟩
  | cons d ds ih =>
    intro r r2 h
    rw [List.foldlM_cons] at h
    simp only [Bind.bind, Except.bind] at h
    cases hd : extractDeclarator r d with
    | error e => rw [hd] at h; cases h
    | ok r1 =>
      rw [hd] at h
      obtain ⟨hm, hp, hc⟩ := extractDeclarator_fields hd
      obtain ⟨im, ip, ic⟩ := ih r1 r2 h
      refine ⟨im.trans hm, ?_, ?_⟩
      · rw [ip, hp]
        by_cases hpd : isPropsAliasDecl d = true
        · simp [hpd, List.filter_cons, List.foldl_cons]
        · rw [Bool.not_eq_true] at hpd
          simp [hpd, List.filter_cons]
      · rw [ic, hc]
        by_cases hpd : isCtorAliasDecl d = true
        · simp [hpd, List.filter_cons, List.foldl_cons]
        · rw [Bool.not_eq_true] at hpd
          simp [hpd, List.filter_cons]

theorem extractStatement_fields {r r2 : Replacements} {s : JSVal}
    (h : extractStatement r s = .ok r2) :
    r2.thisMirror = r.thisMirror ∧
    r2.thisProps = (((declaratorsOfStmt s).filter isPropsAliasDecl).foldl
      (fun _ d => getD (getD d "id") "name") r.thisProps) ∧
    r2.thisConstructor = (((declaratorsOfStmt s).filter isCtorAliasDecl).foldl
      (fun _ d => getD (getD d "id") "name") r.thisConstructor) := by
  unfold extractStatement at h
  simp only [Bind.bind, Except.bind] at h
  cases ht : getField s "type" with
  | error e => rw [ht] at h; cases h
  | ok nt =>
    rw [ht] at h
    have ht2 := getD_of_getField_ok ht
    unfold declaratorsOfStmt
    rw [ht2]
    by_cases hvd : isStrV nt "VariableDeclaration" = true
    · simp only [hvd, if_true] at h
      rw [if_pos hvd]
      cases hdv : getField s "declarations" with
      | error e => rw [hdv] at h; cases h
      | ok declsV =>
        rw [hdv] at h
        dsimp only at h
        cases hit : asIterable declsV with
        | error e => rw [hit] at h; cases h
        | ok ds =>
          rw [hit] at h
          dsimp only at h
          rw [getD_of_getField_ok hdv, asIterable_toListD hit]
          exact extractDeclList ds r r2 h
    · rw [Bool.not_eq_true] at hvd
      simp only [hvd, Bool.false_eq_true, if_false] at h
      rw [if_neg (by simp [hvd])]
      simp only [pure, Except.pure, Except.ok.injEq] at h
      subst h
      exact ⟨rfl, rfl, rfl⟩

theorem extractStmtsList (stmts : List JSVal) : ∀ (r r2 : Replacements),
    stmts.foldlM extractStatement r = .ok r2 →
    r2.thisMirror = r.thisMirror ∧
    r2.thisProps = lastAliasName isPropsAliasDecl stmts r.thisProps ∧
    r2.thisConstructor = lastAliasName isCtorAliasDecl stmts r.thisConstructor := by
  induction stmts with
  | nil =>
    intro r r2 h
    simp only [List.foldlM_nil, pure, Except.pure, Except.ok.injEq] at h
    subst h
    exact ⟨rfl, rfl, rfl⟩
  | cons s stmts ih =>
    intro r r2 h
    rw [List.foldlM_cons] at h
    simp only [Bind.bind, Except.bind] at h
    cases hs : extractStatement r s with
    | error e => rw [hs] at h; cases h
    | ok r1 =>
      rw [hs] at h
      obtain ⟨hm, hp, hc⟩ := extractStatement_fields hs
      obtain ⟨im, ip, ic⟩ := ih r1 r2 h
      refine ⟨im.trans hm, ?_, ?_⟩
      · rw [ip, hp]
        unfold lastAliasName
        simp [List.filter_append, List.foldl_append]
      · rw [ic, hc]
        unfold lastAliasName
        simp [List.filter_append, List.foldl_append]

/-- C4 (amended): for every function body the extraction records at most one
alias name per canonical target, but when several top-level declarations alias
the same canonical target the LAST matching declaration wins (later matches
overwrite earlier ones); moreover aliases of bare `this` are never recorded at
all — the mirror field always comes back `undefined`. -/
theorem extract_last_wins (fb : JSVal) (r : Replacements)
    (h : extractVariableReplacements fb = .ok r) :
    ∃ stmts, asIterable fb = .ok stmts ∧
      r.thisMirror = .undef ∧
      r.thisProps = lastAliasName isPropsAliasDecl stmts .undef ∧
      r.thisConstructor = lastAliasName isCtorAliasDecl stmts .undef := by
  unfold extractVariableReplacements at h
  simp only [Bind.bind, Except.bind] at h
  cases hs : asIterable fb with
  | error e => rw [hs] at h; cases h
  | ok stmts =>
    rw [hs] at h
    obtain ⟨hm, hp, hc⟩ := extractStmtsList stmts {} r h
    exact ⟨stmts, rfl, hm, hp, hc⟩

end ClassParser

theorem extract_last_wins_w :
    ∃ stmts, asIterable twoPropsAliases = .ok stmts ∧
      ({ thisProps := .str "b", thisConstructor := .undef, thisMirror := .undef } : Replacements).thisMirror = .undef ∧
      ({ thisProps := .str "b", thisConstructor := .undef, thisMirror := .undef } : Replacements).thisProps =
        lastAliasName isPropsAliasDecl stmts .undef ∧
      ({ thisProps := .str "b", thisConstructor := .undef, thisMirror := .undef } : Replacements).thisConstructor =
        lastAliasName isCtorAliasDecl stmts .undef :=
  extract_last_wins twoPropsAliases
    { thisProps := .str "b", thisConstructor := .undef, thisMirror := .undef } rfl

namespace ClassParser

open JSVal

theorem filterOutIndexFrom_big (xs : List JSVal) : ∀ (idx : Int) (i : Nat), idx < (i : Int) →
    filterOutIndexFrom idx i xs = xs := by
  induction xs with
  | nil => intro idx i h; rfl
  | cons x xs ih =>
    intro idx i h
    unfold filterOutIndexFrom
    rw [if_neg (by omega)]
    rw [ih idx (i + 1) (by push_cast; omega)]

theorem filterOutIndexFrom_eraseIdx (xs : List JSVal) : ∀ (k i : Nat),
    filterOutIndexFrom ((k + i : Nat) : Int) k xs = xs.eraseIdx i := by
  induction xs with
  | nil => intro k i; rfl
  | cons x xs ih =>
    intro k i
    unfold filterOutIndexFrom
    cases i with
    | zero =>
      rw [if_pos (by push_cast; omega), List.eraseIdx_cons_zero]
      exact filterOutIndexFrom_big xs _ _ (by push_cast; omega)
    | succ j =>
      rw [if_neg (by push_cast; omega), List.eraseIdx_cons_succ]
      have := ih (k + 1) j
      rw [show ((k + 1 : Nat) + j : Nat) = k + (j + 1) by omega] at this
      rw [this]

theorem eraseIdx_big (xs : List JSVal) : ∀ i, xs.length ≤ i → xs.eraseIdx i = xs := by
  induction xs with
  | nil => intro i h; rfl
  | cons x xs ih =>
    intro i h
    cases i with
    | zero => simp at h
    | succ j => rw [List.eraseIdx_cons_succ, ih j (by simpa using h)]

theorem filterOutIndexFrom_indexOf (ds : List JSVal) (v : JSVal) :
    filterOutIndexFrom (jsIndexOf ds v) 0 ds =
      ds.eraseIdx (ds.findIdx (fun x => jsBeq x v)) := by
  unfold jsIndexOf
  by_cases hlt : ds.findIdx (fun x => jsBeq x v) < ds.length
  · rw [if_pos hlt]
    have := filterOutIndexFrom_eraseIdx ds 0 (ds.findIdx (fun x => jsBeq x v))
    simpa using this
  · rw [if_neg hlt]
    rw [filterOutIndexFrom_big ds (-1) 0 (by norm_num)]
    rw [eraseIdx_big ds _ (by omega)]

/-- C9: for the wrapped-factory shape, the output variable declaration keeps
every sibling declarator structurally unchanged, in its original relative
order, and places the rewritten declarator (whose new-expression callee became
the class declaration) LAST — so a declarator that was not last in the input
moves position in the output. -/
theorem parseNewClass_sibling_order (node parent : JSVal) (context : ClassParsingContext)
    (cb : List JSVal) (declsV initV : JSVal) (ds : List JSVal)
    (hcb : buildClassBody context.protoIdentifier context.classConstructor
      context.functionBody context = .ok cb)
    (hdv : getField parent "declarations" = .ok declsV)
    (hds : asArray declsV = .ok ds)
    (hin : getField node "init" = .ok initV) :
    parseNewClass node parent context = .ok (objWith parent "declarations" (.arr
      ((ds.eraseIdx (ds.findIdx (fun d => jsBeq d node))) ++
       [objWith node "init" (objWith initV "callee"
         (newClassCallee context.name context.superClass cb))]))) := by
  unfold parseNewClass
  simp only [Bind.bind, Except.bind]
  rw [hcb]
  dsimp only
  rw [hdv]
  dsimp only
  rw [hds]
  dsimp only
  rw [hin]
  dsimp only
  rw [filterOutIndexFrom_indexOf]
  rfl

theorem parseNewClass_sibling_order_w :
    parseNewClass wNode wParent wCtx = .ok (objWith wParent "declarations" (.arr
      (([wNode].eraseIdx ([wNode].findIdx (fun d => jsBeq d wNode))) ++
       [objWith wNode "init" (objWith wInit "callee"
         (newClassCallee wCtx.name wCtx.superClass [JSVal.nul, JSVal.nul]))]))) :=
  parseNewClass_sibling_order wNode wParent wCtx [JSVal.nul, JSVal.nul]
    (.arr [wNode]) wInit [wNode] rfl rfl rfl rfl

theorem optGetD_of_not_nullish {v : JSVal} (k : String) (h : isNullish v = false) :
    optGetD v k = getD v k := by
  unfold optGetD
  rw [h]
  rfl

theorem getD_objWith_of_obj {b : JSVal} (hb : ∃ fs, b = .obj fs) {k2 : String} (k : String)
    (v : JSVal) (h : k2 ≠ k) : getD (objWith b k v) k2 = getD b k2 := by
  obtain ⟨fs, rfl⟩ := hb
  rw [getD_objWith_ne _ _ _ h]

theorem findClassType_class_inv {n p : JSVal}
    (h : findClassType n p = .ok (some ClassType.Class)) :
    ∃ pt initV, getField p "type" = .ok pt ∧ isStrV pt "VariableDeclaration" = true ∧
      getField n "init" = .ok initV ∧
      (isStrV (optGetD initV "type") "CallExpression" &&
       isStrV (optGetD (getD initV "callee") "type") "FunctionExpression") = true := by
  unfold findClassType at h
  simp only [Bind.bind, Except.bind] at h
  cases hpt : getField p "type" with
  | error e => rw [hpt] at h; cases h
  | ok pt =>
    rw [hpt] at h
    dsimp only at h
    by_cases hvd : isStrV pt "VariableDeclaration" = true
    · rw [if_pos hvd] at h
      cases hin : getField n "init" with
      | error e => rw [hin] at h; cases h
      | ok initV =>
        rw [hin] at h
        dsimp only at h
        by_cases hc1 : (isStrV (optGetD initV "type") "CallExpression" &&
            isStrV (optGetD (getD initV "callee") "type") "FunctionExpression") = true
        · exact ⟨pt, initV, rfl, hvd, rfl, hc1⟩
        · rw [Bool.not_eq_true] at hc1
          rw [if_neg (by simp [hc1])] at h
          split at h <;> cases h
    · rw [Bool.not_eq_true] at hvd
      rw [if_neg (by simp [hvd])] at h
      cases h

theorem findClassType_new_inv {n p : JSVal}
    (h : findClassType n p = .ok (some ClassType.NewClass)) :
    ∃ pt initV, getField p "type" = .ok pt ∧ isStrV pt "VariableDeclaration" = true ∧
      getField n "init" = .ok initV ∧
      isStrV (optGetD initV "type") "NewExpression" = true ∧
      isStrV (optGetD (getD initV "callee") "type") "ParenthesizedExpression" = true := by
  unfold findClassType at h
  simp only [Bind.bind, Except.bind] at h
  cases hpt : getField p "type" with
  | error e => rw [hpt] at h; cases h
  | ok pt =>
    rw [hpt] at h
    dsimp only at h
    by_cases hvd : isStrV pt "VariableDeclaration" = true
    · rw [if_pos hvd] at h
      cases hin : getField n "init" with
      | error e => rw [hin] at h; cases h
      | ok initV =>
        rw [hin] at h
        dsimp only at h
        split at h
        · cases h
        · split at h
          · rename_i hc2
            rw [Bool.and_eq_true] at hc2
            exact ⟨pt, initV, rfl, hvd, rfl, hc2.1, hc2.2⟩
          · cases h
    · rw [Bool.not_eq_true] at hvd
      rw [if_neg (by simp [hvd])] at h
      cases h

theorem parse_matched {pc : JSVal → String} {n p w out : JSVal} {ct : ClassType}
    {ctx : ClassParsingContext}
    (hn : truthyV n = true) (hp : truthyV p = true) (hw : truthyV w = true)
    (hct : findClassType n p = .ok (some ct)) (hctx : buildParsingContext pc n p ct = some ctx)
    (h : parse pc n p w = .ok out) : parseClassByType ct n p ctx = .ok out := by
  unfold parse at h
  rw [hn, hp, hw] at h
  simp only [Bool.not_true, Bool.or_self, Bool.or_false, Bool.false_or, if_false,
    Bind.bind, Except.bind] at h
  rw [hct] at h
  dsimp only at h
  rw [hctx] at h
  exact h

theorem parseRegularClass_shape {n p : JSVal} {ctx : ClassParsingContext} {out : JSVal}
    (h : parseRegularClass n p ctx = .ok out) :
    getD out "type" = .str "ClassDeclaration" ∧ (∃ fs, out = .obj fs) := by
  unfold parseRegularClass at h
  simp only [Bind.bind, Except.bind] at h
  cases hcb : buildClassBody ctx.protoIdentifier ctx.classConstructor ctx.functionBody ctx with
  | error e => rw [hcb] at h; cases h
  | ok cb =>
    rw [hcb] at h
    dsimp only [pure, Except.pure] at h
    cases h
    constructor
    · rw [getD_objWith_of_obj (exists_obj_objWith _ _ _) _ _ (by decide)]
      rw [getD_objWith_of_obj (exists_obj_objWith _ _ _) _ _ (by decide)]
      rw [getD_objWith_of_obj (exists_obj_objWith _ _ _) _ _ (by decide)]
      rw [getD_objWith_same]
    · exact exists_obj_objWith _ _ _

theorem parseNewClass_shape {node p : JSVal} {ctx : ClassParsingContext} {out : JSVal}
    (h : parseNewClass node p ctx = .ok out) :
    ∃ (cb : List JSVal) (declsV : JSVal) (ds : List JSVal) (initV : JSVal),
      getField p "declarations" = .ok declsV ∧ asArray declsV = .ok ds ∧
      getField node "init" = .ok initV ∧
      out = objWith p "declarations" (.arr (filterOutIndexFrom (jsIndexOf ds node) 0 ds ++
        [objWith node "init" (objWith initV "callee"
          (newClassCallee ctx.name ctx.superClass cb))])) := by
  unfold parseNewClass at h
  simp only [Bind.bind, Except.bind] at h
  cases hcb : buildClassBody ctx.protoIdentifier ctx.classConstructor ctx.functionBody ctx with
  | error e => rw [hcb] at h; cases h
  | ok cb =>
    rw [hcb] at h
    dsimp only at h
    cases hdv : getField p "declarations" with
    | error e => rw [hdv] at h; cases h
    | ok declsV =>
      rw [hdv] at h
      dsimp only at h
      cases hds : asArray declsV with
      | error e => rw [hds] at h; cases h
      | ok ds =>
        rw [hds] at h
        dsimp only at h
        cases hin : getField node "init" with
        | error e => rw [hin] at h; cases h
        | ok initV =>
          rw [hin] at h
          dsimp only [pure, Except.pure] at h
          cases h
          refine ⟨cb, declsV, ds, initV, ?_, ?_, ?_, rfl⟩ <;>
            first
              | rfl
              | exact hdv
              | exact hds

end ClassParser

namespace ClassParser

open JSVal

/-- C8: the rewrite is idempotent on its own output — when a rewrite actually
happened (present arguments, a matched shape, a built context, a successful
result), re-running `parse` on the output is a no-op: for the direct shape the
output is a class declaration and matches neither factory shape; for the
wrapped shape the declarations list ends with the rewritten declarator, whose
new-expression callee is now a class declaration, and re-running `parse` on
that declarator against the output returns the output unchanged. -/
theorem rewrite_idempotent (pc : JSVal → String) (node parent wb out : JSVal)
    (hn : truthyV node = true) (hp : truthyV parent = true) (hw : truthyV wb = true)
    (hok : parse pc node parent wb = .ok out) :
    (∀ ctx, findClassType node parent = .ok (some ClassType.Class) →
      buildParsingContext pc node parent ClassType.Class = some ctx →
      ∀ n2 w2, parse pc n2 out w2 = .ok out) ∧
    (∀ ctx, findClassType node parent = .ok (some ClassType.NewClass) →
      buildParsingContext pc node parent ClassType.NewClass = some ctx →
      ∃ sib newNode, getD out "declarations" = .arr (sib ++ [newNode]) ∧
        ∀ w2, parse pc newNode out w2 = .ok out) := by
  constructor
  · intro ctx hct hctx n2 w2
    have hcls := parse_matched hn hp hw hct hctx hok
    unfold parseClassByType at hcls
    obtain ⟨hty, fs, hfs⟩ := parseRegularClass_shape hcls
    unfold parse
    by_cases hg : (!truthyV n2 || !truthyV out || !truthyV w2) = true
    · simp [hg, pure, Except.pure]
    · have hfc : findClassType n2 out = .ok none := by
        unfold findClassType
        have hgf : getField out "type" = .ok (getD out "type") := by
          rw [hfs]
          rfl
        rw [hgf, hty]
        simp [Bind.bind, Except.bind, isStrV, pure, Except.pure]
      simp [hg, hfc, Bind.bind, Except.bind, pure, Except.pure]
  · intro ctx hct hctx
    have hcls := parse_matched hn hp hw hct hctx hok
    unfold parseClassByType at hcls
    obtain ⟨cb, declsV, ds, initV, hdv, hds, hin, hout⟩ := parseNewClass_shape hcls
    obtain ⟨pt, initV2, hpt, hptv, hin2, hnty, hpty⟩ := findClassType_new_inv hct
    have hin3 : initV2 = initV := by
      rw [hin] at hin2
      exact (Except.ok.inj hin2).symm
    rw [hin3] at hnty
    have hptD : getD parent "type" = .str "VariableDeclaration" := by
      have h1 := getD_of_getField_ok hpt
      rw [(isStrV_iff _ _).mp hptv] at h1
      exact h1
    have hpobj : ∃ gs, parent = .obj gs := exists_obj_of_getD_str hptD
    obtain ⟨hinn, htyD⟩ := not_nullish_of_optGetD_str ((isStrV_iff _ _).mp hnty)
    have hivobj : ∃ gs, initV = .obj gs := exists_obj_of_getD_str htyD
    refine ⟨filterOutIndexFrom (jsIndexOf ds node) 0 ds,
      objWith node "init" (objWith initV "callee" (newClassCallee ctx.name ctx.superClass cb)),
      ?_, ?_⟩
    · rw [hout, getD_objWith_same]
    · intro w2
      unfold parse
      by_cases hg2 : truthyV w2 = true
      · have hgu : (!truthyV (objWith node "init"
            (objWith initV "callee" (newClassCallee ctx.name ctx.superClass cb))) ||
            !truthyV out || !truthyV w2) = false := by
          rw [truthyV_objWith, hg2, hout, truthyV_objWith]
          rfl
        rw [hgu]
        have hfc : findClassType (objWith node "init"
            (objWith initV "callee" (newClassCallee ctx.name ctx.superClass cb))) out = .ok none := by
          unfold findClassType
          simp only [Bind.bind, Except.bind]
          have hgf : getField out "type" = .ok (.str "VariableDeclaration") := by
            rw [hout, getField_of_not_nullish _ (isNullish_objWith _ _ _)]
            rw [getD_objWith_of_obj hpobj _ _ (by decide), hptD]
          rw [hgf]
          dsimp only
          rw [if_pos (by rfl)]
          have hgi : getField (objWith node "init"
              (objWith initV "callee" (newClassCallee ctx.name ctx.superClass cb))) "init" =
              .ok (objWith initV "callee" (newClassCallee ctx.name ctx.superClass cb)) := by
            rw [getField_of_not_nullish _ (isNullish_objWith _ _ _), getD_objWith_same]
          rw [hgi]
          dsimp only
          have hXty : optGetD (objWith initV "callee" (newClassCallee ctx.name ctx.superClass cb))
              "type" = .str "NewExpression" := by
            rw [optGetD_of_not_nullish _ (isNullish_objWith _ _ _)]
            rw [getD_objWith_of_obj hivobj _ _ (by decide)]
            exact htyD
          have hXcal : getD (objWith initV "callee" (newClassCallee ctx.name ctx.superClass cb))
              "callee" = newClassCallee ctx.name ctx.superClass cb := getD_objWith_same _ _ _
          rw [hXty, hXcal]
          simp [isStrV, newClassCallee, optGetD, isNullish, getD, lookupField,
            pure, Except.pure]
        simp only [Bind.bind, Except.bind]
        rw [hfc]
        dsimp only [pure, Except.pure]
        rfl
      · rw [Bool.not_eq_true] at hg2
        have hgu : (!truthyV (objWith node "init"
            (objWith initV "callee" (newClassCallee ctx.name ctx.superClass cb))) ||
            !truthyV out || !truthyV w2) = true := by
          rw [hg2]
          simp
        rw [hgu]
        dsimp only [pure, Except.pure]
        rfl

end ClassParser

section FixturesDirect

open JSVal ClassParser

/-- Direct-factory fixture: constructor returning immediately. -/
def dCtor : JSVal := .obj [("type", .str "FunctionDeclaration"),
  ("body", .obj [("type", .str "BlockStatement"), ("body", .arr [retStmt (identN "A")])])]

/-- Its factory function. -/
def dCallee : JSVal := .obj [("type", .str "FunctionExpression"),
  ("body", .obj [("type", .str "BlockStatement"),
    ("body", .arr [.obj [("type", .str "EmptyStatement")], dCtor])])]

/-- The direct-factory candidate declarator. -/
def dNode : JSVal := .obj [("type", .str "VariableDeclarator"), ("id", identN "A"),
  ("init", .obj [("type", .str "CallExpression"), ("callee", dCallee), ("arguments", .arr [])])]

/-- The context extracted from `dNode`. -/
def dCtx : ClassParsingContext :=
  ⟨.str "A", .nul, .undef, dCtor, .arr [.obj [("type", .str "EmptyStatement")], dCtor], .obj []⟩

/-- The class declaration `parse` produces from `dNode`. -/
def dOut : JSVal := .obj [("type", .str "ClassDeclaration"), ("id", identN "A"),
  ("superClass", .nul), ("body", .obj [("type", .str "ClassBody"), ("body", .arr [])])]

/-- The declaration statement `parse` produces from `wNode`. -/
def wOut : JSVal := objWith wParent "declarations"
  (.arr [objWith wNode "init" (objWith wInit "callee" (newClassCallee (.str "B") .nul [.nul, .nul]))])

end FixturesDirect

theorem rewrite_idempotent_w :
    parse printStub dOut dOut (.str "x") = .ok dOut ∧
    (∃ sib newNode, getD wOut "declarations" = .arr (sib ++ [newNode]) ∧
      ∀ w2, parse printStub newNode wOut w2 = .ok wOut) :=
  ⟨(rewrite_idempotent printStub dNode parentVD (.str "cfg") dOut rfl rfl rfl rfl).1
      dCtx rfl rfl dOut (.str "x"),
   (rewrite_idempotent printStub wNode wParent (.str "cfg") wOut rfl rfl rfl rfl).2
      wCtx rfl rfl⟩

namespace ClassParser

open JSVal

theorem jsWalkPureList_eq_map (f : JSVal → JSVal) (xs : List JSVal) :
    jsWalkPureList f xs = xs.map (jsWalkPure f) := by
  induction xs with
  | nil => rfl
  | cons x xs ih => rw [jsWalkPureList, ih, List.map_cons]

theorem lookup_walkFields_set (f : JSVal → JSVal) (gs : List (String × JSVal))
    (k : String) (v : JSVal) :
    lookupField (jsWalkPureFields f (setFieldList gs k v)) k = jsWalkPure f v := by
  induction gs with
  | nil => simp [setFieldList, jsWalkPureFields, lookupField]
  | cons kv gs ih =>
    obtain ⟨k0, v0⟩ := kv
    by_cases h : k0 = k
    · subst h
      simp [setFieldList, jsWalkPureFields, lookupField]
    · simp [setFieldList, jsWalkPureFields, lookupField, h, ih]

theorem getD_walk_objWith (f : JSVal → JSVal) (k : String)
    (hf : ∀ v, getD (f v) k = getD v k) (base B : JSVal) :
    getD (jsWalkPure f (objWith base k B)) k = jsWalkPure f B := by
  have key : ∀ fs, getD (jsWalkPure f (.obj fs)) k = lookupField (jsWalkPureFields f fs) k := by
    intro fs
    rw [jsWalkPure, hf]
    rfl
  cases base <;> simp only [objWith] <;> rw [key] <;>
    first
      | rw [lookup_walkFields_set]
      | simp [jsWalkPureFields, lookupField]

theorem walk_body_extract (f : JSVal → JSVal)
    (hf : ∀ v, getD (f v) "body" = getD v "body")
    (hfa : ∀ xs, f (.arr xs) = .arr xs)
    (fe bi : JSVal) (clone : List JSVal) :
    getD (getD (jsWalkPure f (objWith fe "body" (objWith bi "body" (.arr clone)))) "body") "body"
      = .arr (clone.map (jsWalkPure f)) := by
  rw [getD_walk_objWith f "body" hf, getD_walk_objWith f "body" hf]
  rw [jsWalkPure, hfa, jsWalkPureList_eq_map]

theorem identDispatch_body (t : JSVal) (v : JSVal) :
    getD (identDispatch t v) "body" = getD v "body" := by
  unfold identDispatch identVisitor
  split
  · split
    · cases v <;> simp [objWith, getD, lookup_set_ne, lookupField]
    · rfl
  · rfl

theorem identDispatch_arr (t : JSVal) (xs : List JSVal) :
    identDispatch t (.arr xs) = .arr xs := by
  unfold identDispatch
  rw [if_neg]
  simp [getD, isStrV]

theorem replaceIdent_eq_map (fe : JSVal) (clone : List JSVal) (t wb : JSVal) :
    replaceIdentifierReferences fe (.arr clone) t wb =
      .arr (clone.map (jsWalkPure (identDispatch t))) := by
  unfold replaceIdentifierReferences walkAncestor
  exact walk_body_extract (identDispatch t) (identDispatch_body t) (identDispatch_arr t) fe _ clone

/-- C5: for a constructor body satisfying the regular super-call idiom — a
leading variable declaration binding `v`, an expression statement assigning a
logical-OR of a member-expression call and `this`, and a trailing return of
`v` — the pattern recognizer accepts, and the handler rewrites the body to
begin with `super(...)` carrying the original call's arguments with the first
one dropped, removes the two leading statements and the trailing return, and
renames every remaining reference to the removed variable to `this` (the
renaming walk runs over the whole rebuilt body, super arguments included). -/
theorem regular_super_call_rewrite
    (s0 s1 ret fe superClass wb d0 idv tname expr right callNode retArg : JSVal)
    (drest mid args : List JSVal)
    (hsc : truthyV superClass = true)
    (hs0 : optGetD s0 "type" = .str "VariableDeclaration")
    (hdecl : getD s0 "declarations" = .arr (d0 :: drest))
    (hd0n : isNullish d0 = false)
    (hd0 : getD d0 "id" = idv)
    (hidn : isNullish idv = false)
    (hidt : getD idv "type" = .str "Identifier")
    (hnm : getD idv "name" = tname)
    (hs1 : optGetD s1 "type" = .str "ExpressionStatement")
    (hex : getD s1 "expression" = expr)
    (hext : optGetD expr "type" = .str "AssignmentExpression")
    (hrg : getD expr "right" = right)
    (hrt : optGetD right "type" = .str "LogicalExpression")
    (hlf : getD right "left" = callNode)
    (hlt : optGetD callNode "type" = .str "CallExpression")
    (hlc : optGetD (getD callNode "callee") "type" = .str "MemberExpression")
    (hop : getD right "operator" = .str "||")
    (hrr : optGetD (getD right "right") "type" = .str "ThisExpression")
    (hrett : optGetD ret "type" = .str "ReturnStatement")
    (hreta : getD ret "argument" = retArg)
    (hretat : optGetD retArg "type" = .str "Identifier")
    (hretnm : jsEqPrim (getD retArg "name") tname = true)
    (hargs : getD callNode "arguments" = .arr args) :
    isRegularSuperCallPattern (s0 :: s1 :: (mid ++ [ret])) ret superClass = .ok true ∧
    handleRegularSuperCall (s0 :: s1 :: (mid ++ [ret])) fe superClass wb =
      .ok (.arr ((superCallStmt (args.drop 1) :: mid).map (jsWalkPure (identDispatch tname)))) := by
  obtain ⟨hs0n, hs0t⟩ := not_nullish_of_optGetD_str hs0
  obtain ⟨hs1n, hs1t⟩ := not_nullish_of_optGetD_str hs1
  obtain ⟨hexn, hexpt⟩ := not_nullish_of_optGetD_str hext
  obtain ⟨hrtn, hrtt⟩ := not_nullish_of_optGetD_str hrt
  obtain ⟨hltn, hltt⟩ := not_nullish_of_optGetD_str hlt
  constructor
  · unfold isRegularSuperCallPattern
    rw [hsc]
    rw [show ((!true || decide ((s0 :: s1 :: (mid ++ [ret])).length < 2))) = false by
      simp only [Bool.not_true, Bool.false_or, decide_eq_false_iff_not, List.length_cons]
      omega]
    rw [if_neg (by simp)]
    simp only [List.getD_cons_zero, List.getD_cons_succ]
    rw [hs0]
    rw [if_neg (by simp [isStrV])]
    simp only [Bind.bind, Except.bind, hdecl]
    rw [show getIdx (JSVal.arr (d0 :: drest)) 0 = .ok d0 from rfl]
    simp [hd0n, hd0, hidn, hidt, hs1, hex, hext, hrg, hrt, hlf, hlt, hlc, hop, hrr, hrett,
      hreta, hretat, hnm, hretnm, isStrV, pure, Except.pure]
  · unfold handleRegularSuperCall
    simp only [Bind.bind, Except.bind, List.getD_cons_zero, List.getD_cons_succ]
    rw [getField_of_not_nullish _ hs0n, hdecl]
    dsimp only
    rw [show getIdx (JSVal.arr (d0 :: drest)) 0 = .ok d0 from rfl]
    dsimp only
    rw [getField_of_not_nullish _ hd0n, hd0]
    dsimp only
    rw [getField_of_not_nullish _ hidn, hnm]
    dsimp only
    rw [getField_of_not_nullish _ hs1n, hex]
    dsimp only
    rw [getField_of_not_nullish _ hexn, hrg]
    dsimp only
    rw [getField_of_not_nullish _ hrtn, hlf]
    dsimp only
    rw [getField_of_not_nullish _ hltn, hargs]
    dsimp only
    rw [show asIterable (JSVal.arr args) = .ok args from rfl]
    dsimp only
    rw [show (s0 :: s1 :: (mid ++ [ret])).drop 2 = mid ++ [ret] from rfl]
    rw [List.dropLast_concat]
    rw [replaceIdent_eq_map]
    rfl

end ClassParser

section FixturesSuper

open JSVal ClassParser

/-- `var _this;` with a single declarator. -/
def c5Decl : JSVal := .obj [("type", .str "VariableDeclarator"), ("id", identN "_this"),
  ("init", .undef)]

/-- The leading declaration of the super-call idiom. -/
def c5S0 : JSVal := .obj [("type", .str "VariableDeclaration"), ("kind", .str "var"),
  ("declarations", .arr [c5Decl])]

/-- `Foo.call(this, a, b)`. -/
def c5Call : JSVal := .obj [("type", .str "CallExpression"),
  ("callee", memberE (identN "Foo") "call"),
  ("arguments", .arr [thisE, identN "a", identN "b"])]

/-- `Foo.call(this, a, b) || this`. -/
def c5Logical : JSVal := .obj [("type", .str "LogicalExpression"), ("operator", .str "||"),
  ("left", c5Call), ("right", thisE)]

/-- `_this = Foo.call(this, a, b) || this`. -/
def c5Assign : JSVal := .obj [("type", .str "AssignmentExpression"), ("operator", .str "="),
  ("left", identN "_this"), ("right", c5Logical)]

/-- The assignment statement of the idiom. -/
def c5S1 : JSVal := exprStmt c5Assign

/-- A middle statement mentioning the captured variable. -/
def c5Mid : JSVal := exprStmt (memberE (identN "_this") "x")

theorem regular_super_call_rewrite_w :
    isRegularSuperCallPattern (c5S0 :: c5S1 :: ([c5Mid] ++ [retStmt (identN "_this")]))
      (retStmt (identN "_this")) (identN "Foo") = .ok true ∧
    handleRegularSuperCall (c5S0 :: c5S1 :: ([c5Mid] ++ [retStmt (identN "_this")]))
      emptyBodyFn (identN "Foo") (.str "w") =
      .ok (.arr ((superCallStmt ([identN "a", identN "b"]) :: [c5Mid]).map
        (jsWalkPure (identDispatch (.str "_this"))))) :=
  regular_super_call_rewrite c5S0 c5S1 (retStmt (identN "_this")) emptyBodyFn (identN "Foo")
    (.str "w") c5Decl (identN "_this") (.str "_this") c5Assign c5Logical c5Call (identN "_this")
    [] [c5Mid] [thisE, identN "a", identN "b"]
    rfl rfl rfl rfl rfl rfl rfl rfl rfl rfl rfl rfl rfl rfl rfl rfl rfl rfl rfl rfl rfl rfl rfl

end FixturesSuper

namespace ClassParser

open JSVal

/-- A non-computed member access of the literal form `this.constructor`: a
member expression whose object is a `ThisExpression` and whose property is
the identifier `constructor`. -/
def isThisCtorMember (v : JSVal) : Bool :=
  isStrV (getD v "type") "MemberExpression" &&
    isStrV (getD (getD v "object") "type") "ThisExpression" &&
    isValidIdentifier (getD v "property") &&
    isStrV (getD (getD v "property") "name") "constructor" &&
    !(truthyV (getD v "computed"))

mutual
/-- Does the value contain (at any depth) a `this.constructor` member access? -/
def hasThisCtorMember : JSVal → Bool
  | .arr xs => hasThisCtorMemberList xs
  | .obj fs => isThisCtorMember (.obj fs) || hasThisCtorMemberFields fs
  | _ => false
def hasThisCtorMemberList : List JSVal → Bool
  | [] => false
  | x :: xs => hasThisCtorMember x || hasThisCtorMemberList xs
def hasThisCtorMemberFields : List (String × JSVal) → Bool
  | [] => false
  | (_, v) :: fs => hasThisCtorMember v || hasThisCtorMemberFields fs
end

theorem fields_clean_set {fs : List (String × JSVal)} {v : JSVal} (k : String)
    (hfs : hasThisCtorMemberFields fs = false) (hv : hasThisCtorMember v = false) :
    hasThisCtorMemberFields (setFieldList fs k v) = false := by
  induction fs with
  | nil => simp [setFieldList, hasThisCtorMemberFields, hv]
  | cons kv fs ih =>
    obtain ⟨k0, v0⟩ := kv
    rw [hasThisCtorMemberFields, Bool.or_eq_false_iff] at hfs
    by_cases h : k0 = k <;>
      simp [setFieldList, h, hasThisCtorMemberFields, hv, hfs.1, hfs.2, ih hfs.2]

theorem lookup_clean {fs : List (String × JSVal)} (k : String)
    (hfs : hasThisCtorMemberFields fs = false) :
    hasThisCtorMember (lookupField fs k) = false := by
  induction fs with
  | nil => simp [lookupField, hasThisCtorMember]
  | cons kv fs ih =>
    obtain ⟨k0, v0⟩ := kv
    rw [hasThisCtorMemberFields, Bool.or_eq_false_iff] at hfs
    by_cases h : k0 = k <;> simp [lookupField, h, hfs.1, ih hfs.2]

theorem clean_getD {v : JSVal} (k : String) (hv : hasThisCtorMember v = false) :
    hasThisCtorMember (getD v k) = false := by
  cases v with
  | obj fs =>
    rw [hasThisCtorMember, Bool.or_eq_false_iff] at hv
    rw [show getD (JSVal.obj fs) k = lookupField fs k from rfl]
    exact lookup_clean k hv.2
  | arr xs =>
    rw [show getD (JSVal.arr xs) k =
      (if k = "length" then JSVal.num xs.length else JSVal.undef) from rfl]
    split <;> rfl
  | undef => rfl
  | nul => rfl
  | bool b => rfl
  | num n => rfl
  | str s =>
    rw [show getD (JSVal.str s) k =
      (if k = "length" then JSVal.num s.length else JSVal.undef) from rfl]
    split <;> rfl

theorem falsy_not_this {x : JSVal} (h : truthyV x = false) :
    isStrV (getD x "type") "ThisExpression" = false := by
  cases x <;> simp_all [truthyV, getD, isStrV]

theorem notBad_of_not_validMember {v : JSVal} (h : isValidMemberExpression v = false) :
    isThisCtorMember v = false := by
  unfold isValidMemberExpression at h
  unfold isThisCtorMember
  cases htype : isStrV (getD v "type") "MemberExpression"
  · simp [htype]
  · rw [htype] at h
    cases htv : truthyV v
    · rw [htv] at h
      cases v <;> simp_all [getD, isStrV, truthyV]
    · rw [htv] at h
      simp only [Bool.true_and, Bool.and_eq_false_iff] at h
      rcases h with h | h
      · rw [falsy_not_this h]
        simp
      · simp [isValidIdentifier, h]

theorem clean_obj_of {gs : List (String × JSVal)}
    (htop : isThisCtorMember (.obj gs) = false)
    (hfields : hasThisCtorMemberFields gs = false) :
    hasThisCtorMember (.obj gs) = false := by
  rw [hasThisCtorMember, htop, hfields]
  rfl

theorem rule3_clean {gs : List (String × JSVal)}
    (hfields : hasThisCtorMemberFields gs = false) :
    hasThisCtorMember
      (if (isStrV (getD (getD (JSVal.obj gs) "object") "type") "ThisExpression" &&
          isValidIdentifier (getD (JSVal.obj gs) "property") &&
          isStrV (getD (getD (JSVal.obj gs) "property") "name") "constructor") = true
       then objWith (JSVal.obj gs) "type" (.str "ThisExpression") else JSVal.obj gs) = false := by
  split
  · rw [show objWith (JSVal.obj gs) "type" (JSVal.str "ThisExpression") =
      .obj (setFieldList gs "type" (.str "ThisExpression")) from rfl]
    refine clean_obj_of ?_ (fields_clean_set _ hfields rfl)
    unfold isThisCtorMember
    rw [show getD (JSVal.obj (setFieldList gs "type" (.str "ThisExpression"))) "type" =
      lookupField (setFieldList gs "type" (.str "ThisExpression")) "type" from rfl]
    rw [lookup_set_same]
    simp [isStrV]
  · rename_i hc
    rw [Bool.not_eq_true] at hc
    refine clean_obj_of ?_ hfields
    unfold isThisCtorMember
    cases h1 : isStrV (getD (getD (JSVal.obj gs) "object") "type") "ThisExpression" <;>
    cases h2 : isValidIdentifier (getD (JSVal.obj gs) "property") <;>
    cases h3 : isStrV (getD (getD (JSVal.obj gs) "property") "name") "constructor" <;>
      simp_all

theorem memberVisitor_clean (r : Replacements) (fs : List (String × JSVal))
    (h : hasThisCtorMemberFields fs = false) :
    hasThisCtorMember (memberVisitor r (.obj fs)) = false := by
  unfold memberVisitor
  by_cases hg : isValidMemberExpression (.obj fs) = true
  case neg =>
    rw [Bool.not_eq_true] at hg
    rw [if_pos (by simp [hg])]
    exact clean_obj_of (notBad_of_not_validMember hg) h
  case pos =>
    rw [if_neg (by simp [hg])]
    dsimp only
    by_cases hc1 : (truthyV r.thisProps && isValidIdentifier (getD (JSVal.obj fs) "object") &&
        jsEqPrim (getD (getD (JSVal.obj fs) "object") "name") r.thisProps) = true
    · rw [if_pos hc1]
      rw [show objWith (JSVal.obj fs) "object" (JSVal.obj [("type", .str "MemberExpression"),
          ("object", .obj [("type", .str "ThisExpression")]),
          ("property", .obj [("type", .str "Identifier"), ("name", .str "props")])]) =
        .obj (setFieldList fs "object" (JSVal.obj [("type", .str "MemberExpression"),
          ("object", .obj [("type", .str "ThisExpression")]),
          ("property", .obj [("type", .str "Identifier"), ("name", .str "props")])])) from rfl]
      have h1 : hasThisCtorMemberFields (setFieldList fs "object"
          (JSVal.obj [("type", .str "MemberExpression"),
            ("object", .obj [("type", .str "ThisExpression")]),
            ("property", .obj [("type", .str "Identifier"), ("name", .str "props")])])) = false :=
        fields_clean_set _ h rfl
      by_cases hv2 : isValidIdentifier (getD (JSVal.obj (setFieldList fs "object"
          (JSVal.obj [("type", .str "MemberExpression"),
            ("object", .obj [("type", .str "ThisExpression")]),
            ("property", .obj [("type", .str "Identifier"), ("name", .str "props")])]))) "object") = true
      · rw [if_pos hv2]
        split
        · rw [show ∀ gs, objWith (JSVal.obj gs) "object" (JSVal.obj [("type", .str "ThisExpression")]) =
            .obj (setFieldList gs "object" (JSVal.obj [("type", .str "ThisExpression")])) from
            fun gs => rfl]
          exact rule3_clean (fields_clean_set _ h1 rfl)
        · split
          · rw [show ∀ gs, objWith (JSVal.obj gs) "object" (JSVal.obj [("type", .str "ThisExpression")]) =
              .obj (setFieldList gs "object" (JSVal.obj [("type", .str "ThisExpression")])) from
              fun gs => rfl]
            exact rule3_clean (fields_clean_set _ h1 rfl)
          · exact rule3_clean h1
      · rw [if_neg hv2]
        exact rule3_clean h1
    · rw [if_neg hc1]
      by_cases hv2 : isValidIdentifier (getD (JSVal.obj fs) "object") = true
      · rw [if_pos hv2]
        split
        · rw [show ∀ gs, objWith (JSVal.obj gs) "object" (JSVal.obj [("type", .str "ThisExpression")]) =
            .obj (setFieldList gs "object" (JSVal.obj [("type", .str "ThisExpression")])) from
            fun gs => rfl]
          exact rule3_clean (fields_clean_set _ h rfl)
        · split
          · rw [show ∀ gs, objWith (JSVal.obj gs) "object" (JSVal.obj [("type", .str "ThisExpression")]) =
              .obj (setFieldList gs "object" (JSVal.obj [("type", .str "ThisExpression")])) from
              fun gs => rfl]
            exact rule3_clean (fields_clean_set _ h rfl)
          · exact rule3_clean h
      · rw [if_neg hv2]
        exact rule3_clean h

mutual
theorem walkMember_clean (r : Replacements) :
    (v : JSVal) → hasThisCtorMember (jsWalkPure (memberDispatch r) v) = false
  | .undef => rfl
  | .nul => rfl
  | .bool b => by
    show hasThisCtorMember (memberDispatch r (.bool b)) = false
    unfold memberDispatch
    rw [if_neg (by simp [getD, isStrV])]
    rfl
  | .num n => by
    show hasThisCtorMember (memberDispatch r (.num n)) = false
    unfold memberDispatch
    rw [if_neg (by simp [getD, isStrV])]
    rfl
  | .str s => by
    show hasThisCtorMember (memberDispatch r (.str s)) = false
    unfold memberDispatch
    rw [if_neg (by simp [getD, isStrV])]
    rfl
  | .arr xs => by
    show hasThisCtorMember (memberDispatch r
      (.arr (jsWalkPureList (memberDispatch r) xs))) = false
    unfold memberDispatch
    rw [if_neg (by simp [getD, isStrV])]
    exact walkMemberList_clean r xs
  | .obj fs => by
    show hasThisCtorMember (memberDispatch r
      (.obj (jsWalkPureFields (memberDispatch r) fs))) = false
    unfold memberDispatch
    have hfs := walkMemberFields_clean r fs
    split
    · exact memberVisitor_clean r _ hfs
    · rename_i hnt
      rw [Bool.not_eq_true] at hnt
      refine clean_obj_of ?_ hfs
      unfold isThisCtorMember
      rw [hnt]
      rfl
theorem walkMemberList_clean (r : Replacements) :
    (xs : List JSVal) → hasThisCtorMemberList (jsWalkPureList (memberDispatch r) xs) = false
  | [] => rfl
  | x :: xs => by
    rw [jsWalkPureList, hasThisCtorMemberList, walkMember_clean r x, walkMemberList_clean r xs]
    rfl
theorem walkMemberFields_clean (r : Replacements) :
    (fs : List (String × JSVal)) →
      hasThisCtorMemberFields (jsWalkPureFields (memberDispatch r) fs) = false
  | [] => rfl
  | (k, v) :: fs => by
    rw [jsWalkPureFields, hasThisCtorMemberFields, walkMember_clean r v,
      walkMemberFields_clean r fs]
    rfl
end

/-- C7: during de-aliasing, every member expression of the literal form
`this.constructor` is rewritten into a `this` node, whatever aliases were
recorded: the visitor turns any such node's type into `ThisExpression`, and
the body returned by `applyVariableReplacements` never contains a
`this.constructor` member access at any depth. -/
theorem this_constructor_collapsed (fe functionBody : JSVal)
    (replacements : Replacements) (wb : JSVal) :
    (∀ v, isThisCtorMember v = true →
      getD (memberVisitor replacements v) "type" = .str "ThisExpression") ∧
    hasThisCtorMember (applyVariableReplacements fe functionBody replacements wb) = false := by
  constructor
  · intro v hv
    unfold isThisCtorMember at hv
    simp only [Bool.and_eq_true] at hv
    obtain ⟨⟨⟨⟨hty, hobj⟩, hprop⟩, hnm⟩, hcomp⟩ := hv
    have hvobj : ∃ gs, v = .obj gs := exists_obj_of_getD_str ((isStrV_iff _ _).mp hty)
    obtain ⟨gs, rfl⟩ := hvobj
    have hoobj : ∃ os, getD (JSVal.obj gs) "object" = .obj os :=
      exists_obj_of_getD_str ((isStrV_iff _ _).mp hobj)
    obtain ⟨os, hos⟩ := hoobj
    have hgv : isValidMemberExpression (JSVal.obj gs) = true := by
      unfold isValidIdentifier at hprop
      simp only [Bool.and_eq_true] at hprop
      unfold isValidMemberExpression
      rw [hty, hos, hprop.1.1]
      rfl
    have hts : getD (JSVal.obj os) "type" = .str "ThisExpression" := by
      apply (isStrV_iff _ _).mp
      rw [hos] at hobj
      exact hobj
    have hnotid : isValidIdentifier (getD (JSVal.obj gs) "object") = false := by
      unfold isValidIdentifier
      rw [hos, hts]
      simp [isStrV]
    have hc1 : (truthyV replacements.thisProps &&
        isValidIdentifier (getD (JSVal.obj gs) "object") &&
        jsEqPrim (getD (getD (JSVal.obj gs) "object") "name") replacements.thisProps) = false := by
      rw [hnotid]
      simp
    have hc3 : (isStrV (getD (getD (JSVal.obj gs) "object") "type") "ThisExpression" &&
        isValidIdentifier (getD (JSVal.obj gs) "property") &&
        isStrV (getD (getD (JSVal.obj gs) "property") "name") "constructor") = true := by
      rw [hobj, hprop, hnm]
      rfl
    unfold memberVisitor
    simp only [hgv, Bool.not_true, Bool.false_eq_true, if_false, hc1]
    simp only [hnotid, Bool.false_eq_true, if_false, hc3, eq_self_iff_true, if_true]
    rw [getD_objWith_same]
  · unfold applyVariableReplacements walkAncestor
    have hw : hasThisCtorMember (jsWalkPure (memberDispatch replacements)
        (objWith fe "body" (objWith (getD fe "body") "body" functionBody))) = false :=
      walkMember_clean replacements _
    exact clean_getD _ (clean_getD _ hw)

theorem this_constructor_collapsed_w :
    getD (memberVisitor {} (memberE thisE "constructor")) "type" = .str "ThisExpression" ∧
    hasThisCtorMember (applyVariableReplacements selfAliasFn (.arr []) {} (.obj [])) = false :=
  ⟨(this_constructor_collapsed selfAliasFn (.arr []) {} (.obj [])).1
      (memberE thisE "constructor") rfl,
    (this_constructor_collapsed selfAliasFn (.arr []) {} (.obj [])).2⟩

end ClassParser

section FixturesC6

open JSVal ClassParser

/-- `_inherits(A, B);` — a first factory statement satisfying the
helper-call idiom: an expression statement calling some function with exactly
two arguments, the first being the identifier `A`. -/
def c6S0 : JSVal :=
  exprStmt (.obj [("type", .str "CallExpression"), ("callee", identN "_inherits"),
    ("arguments", .arr [identN "A", identN "B"])])

/-- `function A() {}` — the named class constructor, second factory statement. -/
def c6Ctor : JSVal :=
  .obj [("type", .str "FunctionDeclaration"), ("id", identN "A"), ("params", .arr []),
    ("body", .obj [("type", .str "BlockStatement"), ("body", .arr [])])]

/-- The factory's block whose statement list is `[_inherits(A, B); function A() {}]`. -/
def c6FnBody : JSVal :=
  .obj [("type", .str "BlockStatement"), ("body", .arr [c6S0, c6Ctor])]

/-- The factory function expression. -/
def c6Fn : JSVal :=
  .obj [("type", .str "FunctionExpression"), ("params", .arr []), ("body", c6FnBody)]

/-- `A = (function A() {...})()` — a Direct-shape declarator whose outer call
carries NO arguments at all. -/
def c6Node : JSVal :=
  .obj [("type", .str "VariableDeclarator"), ("id", identN "A"),
    ("init", .obj [("type", .str "CallExpression"), ("callee", c6Fn),
      ("arguments", .arr [])])]

/-- The outer call `factory(B)` carrying the superclass as its first argument. -/
def c6InitW : JSVal :=
  .obj [("type", .str "CallExpression"), ("callee", c6Fn), ("arguments", .arr [identN "B"])]

/-- Direct-shape declarator around `c6InitW`. -/
def c6NodeW : JSVal :=
  .obj [("type", .str "VariableDeclarator"), ("id", identN "A"), ("init", c6InitW)]

/-- The parenthesized wrapper `(factory(B))` of the Wrapped shape. -/
def c6CalleeW : JSVal :=
  .obj [("type", .str "ParenthesizedExpression"), ("expression", c6InitW)]

/-- `new (factory(B))()` — the Wrapped-shape initializer. -/
def c6Init2W : JSVal :=
  .obj [("type", .str "NewExpression"), ("callee", c6CalleeW), ("arguments", .arr [])]

/-- Wrapped-shape declarator around `c6Init2W`. -/
def c6Node2W : JSVal :=
  .obj [("type", .str "VariableDeclarator"), ("id", identN "A"), ("init", c6Init2W)]

/-- The context both builders produce on the fixtures above. -/
def c6CtxW : ClassParsingContext :=
  { name := .str "A", superClass := identN "B", protoIdentifier := .undef,
    classConstructor := c6Ctor, functionBody := .arr [c6S0, c6Ctor],
    walkBase := .obj [] }

end FixturesC6

namespace JSVal

/-- A successful throwing index read is exactly a read off a non-nullish base,
and returns the non-throwing read's value. -/
theorem getIdx_ok_iff (v : JSVal) (i : Nat) (x : JSVal) :
    getIdx v i = .ok x ↔ (isNullish v = false ∧ getIdxD v i = x) := by
  cases v <;> simp [getIdx, getIdxD, isNullish]

/-- A successful throwing member read is exactly a read off a non-nullish
base, and returns the non-throwing read's value. -/
theorem getField_ok_iff (v : JSVal) (k : String) (x : JSVal) :
    getField v k = .ok x ↔ (isNullish v = false ∧ getD v k = x) := by
  cases v <;> simp [getField, getD, isNullish]

end JSVal

namespace ClassParser

open JSVal

/-- The inheritance-helper-call condition shared by `buildClassContext` and
`buildNewClassContext`: the constructor has a (truthy) id, the factory body's
first statement is an expression statement whose expression is a call
carrying exactly two arguments, and the printed text of the call's first
argument equals the printed text of the constructor's id. -/
def superCallCond (pc : JSVal → String) (fb0 ccId : JSVal) : Bool :=
  truthyV ccId &&
    (isStrV (optGetD fb0 "type") "ExpressionStatement" &&
      (isStrV (optGetD (getD fb0 "expression") "type") "CallExpression" &&
        (jsEqPrim (optGetD (getD (getD fb0 "expression") "arguments") "length") (.num 2) &&
          decide (pc (getIdxD (getD (getD fb0 "expression") "arguments") 0) = pc ccId))))

end ClassParser

section C6Thms

open JSVal ClassParser

/-- C6 counterexample: a Direct-shape candidate whose factory satisfies every
helper-call condition — named constructor, first statement an expression
statement calling `_inherits` with exactly two arguments, the first being
structurally identical to the constructor's id (hence printing identically
under every printer) — but whose outer call carries no arguments: the context
is still built successfully and its `superClass` is nullish (`undefined`,
the out-of-range read of the outer argument list), refuting "`superClass` is
non-null exactly when the conditions hold". -/
theorem superClass_absent_cex :
    (ClassParser.buildClassContext printStub c6Node (.obj []) (.str "A")).map
      (fun ctx => isNullish ctx.superClass) = .ok true ∧
    (truthyV (getD c6Ctor "id") &&
      isStrV (optGetD c6S0 "type") "ExpressionStatement" &&
      isStrV (optGetD (getD c6S0 "expression") "type") "CallExpression" &&
      jsEqPrim (optGetD (getD (getD c6S0 "expression") "arguments") "length") (.num 2)) = true ∧
    getIdxD (getD (getD c6S0 "expression") "arguments") 0 = getD c6Ctor "id" :=
  ⟨rfl, rfl, rfl⟩

/-- C6 (amended): for every successfully built context, `superClass` is
computed as: IF the helper-call condition holds (named constructor; first body
statement an expression statement calling with exactly two arguments; first
argument printing like the constructor's id) THEN the argument at index 0 of
the OUTER expression — `node.init.arguments` for the Direct shape,
`node.init.callee.expression.arguments` for the Wrapped shape, never the
helper call's own arguments — ELSE `null`; in particular the outer read may
yield `undefined` when the outer expression carries no argument, so the
conditions alone do not make `superClass` non-nullish. -/
theorem superClass_from_outer (pc : JSVal → String) :
    (∀ node parent name initV rawFn rfB fb : JSVal, ∀ ctx : ClassParsingContext,
      getField node "init" = .ok initV →
      getField initV "callee" = .ok rawFn →
      getField rawFn "body" = .ok rfB →
      getField rfB "body" = .ok fb →
      buildClassContext pc node parent name = .ok ctx →
      ctx.superClass = if superCallCond pc (getIdxD fb 0) (getD (getIdxD fb 1) "id")
        then getIdxD (getD initV "arguments") 0 else JSVal.nul) ∧
    (∀ node parent name initV calleeV exprV rawFn rfB fb : JSVal, ∀ ctx : ClassParsingContext,
      getField node "init" = .ok initV →
      getField initV "callee" = .ok calleeV →
      getField calleeV "expression" = .ok exprV →
      getField exprV "callee" = .ok rawFn →
      getField rawFn "body" = .ok rfB →
      getField rfB "body" = .ok fb →
      buildNewClassContext pc node parent name = .ok ctx →
      ctx.superClass = if superCallCond pc (getIdxD fb 0) (getD (getIdxD fb 1) "id")
        then getIdxD (getD exprV "arguments") 0 else JSVal.nul) := by
  constructor
  · intro node parent name initV rawFn rfB fb ctx h1 h2 h3 h4 h
    unfold buildClassContext at h
    simp only [Bind.bind, Except.bind] at h
    rw [h1] at h
    dsimp only at h
    rw [h2] at h
    dsimp only at h
    rw [h3] at h
    dsimp only at h
    rw [h4] at h
    dsimp only at h
    repeat' split at h
    all_goals cases h
    all_goals simp_all [superCallCond, getIdx_ok_iff, getField_ok_iff, pure, Except.pure]
  · intro node parent name initV calleeV exprV rawFn rfB fb ctx h1 h2 h3 h4 h5 h6 h
    unfold buildNewClassContext at h
    simp only [Bind.bind, Except.bind] at h
    rw [h1] at h
    dsimp only at h
    rw [h2] at h
    dsimp only at h
    rw [h3] at h
    dsimp only at h
    rw [h4] at h
    dsimp only at h
    rw [h5] at h
    dsimp only at h
    rw [h6] at h
    dsimp only at h
    repeat' split at h
    all_goals cases h
    all_goals simp_all [superCallCond, getIdx_ok_iff, getField_ok_iff, pure, Except.pure]

theorem superClass_from_outer_w :
    (c6CtxW.superClass =
      if ClassParser.superCallCond printStub (getIdxD (.arr [c6S0, c6Ctor]) 0)
          (getD (getIdxD (.arr [c6S0, c6Ctor]) 1) "id")
        then getIdxD (getD c6InitW "arguments") 0 else JSVal.nul) ∧
    (c6CtxW.superClass =
      if ClassParser.superCallCond printStub (getIdxD (.arr [c6S0, c6Ctor]) 0)
          (getD (getIdxD (.arr [c6S0, c6Ctor]) 1) "id")
        then getIdxD (getD c6InitW "arguments") 0 else JSVal.nul) :=
  ⟨(superClass_from_outer printStub).1 c6NodeW (.obj []) (.str "A") c6InitW c6Fn c6FnBody
      (.arr [c6S0, c6Ctor]) c6CtxW rfl rfl rfl rfl rfl,
   (superClass_from_outer printStub).2 c6Node2W (.obj []) (.str "A") c6Init2W c6CalleeW c6InitW
      c6Fn c6FnBody (.arr [c6S0, c6Ctor]) c6CtxW rfl rfl rfl rfl rfl rfl rfl⟩

end C6Thms
